import Mathlib

/-! A shallow embedding of `main.go` of buildgen.

Go strings are modelled by Lean `String`s, i.e. sequences of Unicode scalar
values.  The names the generator consumes come from `reflect` (type and field
identifiers) and are valid UTF-8, so `[]rune(s)` is `s.data` and
`string(runes)` is `String.mk runes`.

The case tables of Go's `unicode` package are data of the Go standard
library, not of this repository; the mapping of the non-ASCII runes is taken
as a parameter (`CaseTables`).  The ASCII branch of `unicode.ToUpper` and
`unicode.ToLower` is embedded literally.

A run-time panic (index out of range) is modelled by `Res.panic`, which keeps
the text written to the file so far.
-/

namespace Buildgen

/-! ## Go standard library -/

/-- Non-ASCII part of the case mapping of Go's `unicode` package
(`unicode.To(UpperCase, r)` and `unicode.To(LowerCase, r)`). -/
structure CaseTables where
  upper : Char → Char
  lower : Char → Char

namespace unicode

/-- Go `unicode.ToUpper`: ASCII letters are handled directly, every other
rune goes through the case table. -/
def ToUpper (tbl : CaseTables) (r : Char) : Char :=
  if r.toNat ≤ 127 then
    if 'a'.toNat ≤ r.toNat ∧ r.toNat ≤ 'z'.toNat then Char.ofNat (r.toNat - 32) else r
  else tbl.upper r

/-- Go `unicode.ToLower`. -/
def ToLower (tbl : CaseTables) (r : Char) : Char :=
  if r.toNat ≤ 127 then
    if 'A'.toNat ≤ r.toNat ∧ r.toNat ≤ 'Z'.toNat then Char.ofNat (r.toNat + 32) else r
  else tbl.lower r

end unicode

namespace strings

/-- Go `strings.ToUpper`: maps `unicode.ToUpper` over the runes of `s`. -/
def ToUpper (tbl : CaseTables) (s : String) : String :=
  String.mk (s.data.map (unicode.ToUpper tbl))

/-- Go `strings.ToLower`: maps `unicode.ToLower` over the runes of `s`. -/
def ToLower (tbl : CaseTables) (s : String) : String :=
  String.mk (s.data.map (unicode.ToLower tbl))

/-- Position-by-position search used by `Split`: `cur` holds, reversed, the
runes of the segment being read; `fuel` bounds the number of steps. -/
def splitLoop (sep : List Char) : Nat → List Char → List Char → List (List Char)
  | 0, _, cur => [cur.reverse]
  | _ + 1, [], cur => [cur.reverse]
  | fuel + 1, c :: cs, cur =>
    if sep.isPrefixOf (c :: cs) then
      cur.reverse :: splitLoop sep fuel ((c :: cs).drop sep.length) []
    else splitLoop sep fuel cs (c :: cur)

/-- Go `strings.Split`: with an empty separator the string is exploded into
its runes (an empty string gives an empty slice); otherwise it is cut at
every non-overlapping occurrence of `sep`, leftmost first. -/
def Split (s sep : String) : List String :=
  if sep.data.isEmpty then s.data.map (fun c => String.mk [c])
  else (splitLoop sep.data (s.data.length + 1) s.data []).map String.mk

end strings

/-! ## Files and panics -/

/-- Outcome of running generator code on a file: either it returns a value,
or it panics; in both cases `file` is the text the file holds at that
moment. -/
inductive Res (α : Type) where
  | ok (val : α) (file : String)
  | panic (file : String)
  deriving DecidableEq, Repr

/-- Code that writes to an `*os.File`: a function of the text already in the
file. -/
def Gen (α : Type) : Type := String → Res α

/-- Return without touching the file. -/
def Gen.pure {α : Type} (a : α) : Gen α := fun file => Res.ok a file

/-- Sequencing: a panic stops the run and keeps the text written so far. -/
def Gen.bind {α β : Type} (m : Gen α) (k : α → Gen β) : Gen β := fun file =>
  match m file with
  | Res.ok a file1 => k a file1
  | Res.panic file1 => Res.panic file1

instance : Monad Gen where
  pure := Gen.pure
  bind := Gen.bind

/-- Go `file.WriteString(s)`: appends `s` to the file. -/
def WriteString (s : String) : Gen Unit := fun file => Res.ok () (file ++ s)

/-- A slice index expression `xs[0]`; panics (index out of range) on an empty
slice. -/
def index0 {α : Type} (xs : List α) : Gen α := fun file =>
  match xs with
  | [] => Res.panic file
  | x :: _ => Res.ok x file

/-- The `for i := 0; i < numFields; i++` loops of the source: the body is run
on `Field(0)`, ..., `Field(numFields-1)` in this order. -/
def forFields {α : Type} : List α → (α → Gen Unit) → Gen Unit
  | [], _ => Gen.pure ()
  | f :: fs, body => Gen.bind (body f) (fun _ => forFields fs body)

/-! ## Reflection data -/

/-- A `reflect.StructField`, reduced to what the generator reads: `Name` and
`Type.String()`. -/
structure StructField where
  Name : String
  TypeString : String
  deriving DecidableEq, Repr

/-- A `reflect.Type` of a struct: `Name()` and the fields `Field(0..NumField()-1)`. -/
structure SeedType where
  Name : String
  Fields : List StructField
  deriving DecidableEq, Repr

/-! ## The generator -/

/-- Constant `path` of the source. -/
def path : String := "/Users/dsearle/go/src/playground/builders"

/-- Source `toPublic`. -/
def toPublic (tbl : CaseTables) (str : String) : Gen String := do
  let runes := str.data
  let r0 ← index0 runes
  let u ← index0 (strings.ToUpper tbl (String.mk [r0])).data
  return String.mk (runes.set 0 u)

/-- Source `toPrivate`. -/
def toPrivate (tbl : CaseTables) (str : String) : Gen String := do
  let runes := str.data
  let r0 ← index0 runes
  let l ← index0 (strings.ToLower tbl (String.mk [r0])).data
  return String.mk (runes.set 0 l)

/-- The receiver expression `strings.ToLower(string([]rune(structName)[0]))`
shared by the method writers. -/
def receiver (tbl : CaseTables) (structName : String) : Gen String := do
  let r0 ← index0 structName.data
  return strings.ToLower tbl (String.mk [r0])

/-- The index expression `dirs[len(dirs)-1]`; panics on an empty slice. -/
def indexLast {α : Type} (xs : List α) : Gen α := fun file =>
  match xs.getLast? with
  | none => Res.panic file
  | some x => Res.ok x file

/-- Source `createFile`, reduced to its effect on the text: `os.Create` yields
an empty file.  Directory creation and the file path are file-system
plumbing and are left out. -/
def createFile (_path _fname : String) : Gen Unit := fun _ => Res.ok () ""

/-- Source `writePackage`; `pathSeparator` is the package-level variable. -/
def writePackage (pathSeparator : String) (path : String) : Gen Unit := do
  let dirs := strings.Split path pathSeparator
  let pkg ← indexLast dirs
  WriteString ("package " ++ pkg ++ "\n")

/-- Source `writeConstructor`. -/
def writeConstructor (tbl : CaseTables) (structType : String) : Gen Unit := do
  let pub ← toPublic tbl structType
  WriteString ("\nfunc New" ++ pub ++ "() *" ++ structType ++ " \x7b\n")
  WriteString ("return new(" ++ structType ++ ") \n\x7d\n")

/-- Source `writeBuilderStruct`. -/
def writeBuilderStruct (tbl : CaseTables) (seedType : SeedType) : Gen String := do
  let pub ← toPublic tbl seedType.Name
  let structType := pub ++ "Builder"
  WriteString ("type " ++ structType ++ " struct\x7b\n")
  forFields seedType.Fields (fun field => do
    let fpub ← toPublic tbl field.Name
    WriteString (fpub ++ " " ++ field.TypeString ++ "\n"))
  WriteString "\x7d"
  return structType

/-- Source `writeStruct`. -/
def writeStruct (seedType : SeedType) : Gen String := do
  let structType := seedType.Name
  WriteString ("type " ++ structType ++ " struct\x7b\n")
  forFields seedType.Fields (fun field =>
    WriteString (field.Name ++ " " ++ field.TypeString ++ "\n"))
  WriteString "\x7d\n"
  return structType

/-- Source `writeGetter`. -/
def writeGetter (tbl : CaseTables) (structName : String) (field : StructField) : Gen Unit := do
  let rcvr ← receiver tbl structName
  let fxName ← toPublic tbl field.Name
  WriteString ("\nfunc ( " ++ rcvr ++ " *" ++ structName ++ ") " ++ fxName ++ "()"
    ++ field.TypeString ++ " \x7b\n")
  WriteString ("return " ++ rcvr ++ "." ++ field.Name)
  WriteString "\n\x7d\n"

/-- Source `writeSetter`. -/
def writeSetter (tbl : CaseTables) (structName : String) (field : StructField) : Gen Unit := do
  let rcvr ← receiver tbl structName
  let fxName ← toPublic tbl field.Name
  WriteString ("\nfunc ( " ++ rcvr ++ " *" ++ structName ++ ") Set" ++ fxName ++ "("
    ++ field.Name ++ " " ++ field.TypeString ++ ") *" ++ structName ++ " \x7b\n")
  WriteString (rcvr ++ "." ++ fxName ++ "=" ++ field.Name)
  WriteString ("\nreturn " ++ rcvr)
  WriteString "\n\x7d\n"

/-- Source `writeAsBuilderMethod`. -/
def writeAsBuilderMethod (tbl : CaseTables) (structName : String) (seedType : SeedType) :
    Gen Unit := do
  let builder := structName ++ "Builder"
  let rcvr ← receiver tbl structName
  WriteString ("\nfunc ( " ++ rcvr ++ " *" ++ structName ++ ") AsBuilder() *" ++ builder ++ " \x7b\n")
  WriteString ("return &" ++ builder ++ "\x7b\n")
  forFields seedType.Fields (fun field => do
    let fpub ← toPublic tbl field.Name
    WriteString (fpub ++ ": " ++ rcvr ++ "." ++ field.Name ++ ",\n"))
  WriteString "\x7d\n\x7d\n"

/-- Source `writeBuildMethod`. -/
def writeBuildMethod (tbl : CaseTables) (structName : String) (seedType : SeedType) :
    Gen Unit := do
  let rcvr ← receiver tbl structName
  WriteString ("\nfunc ( " ++ rcvr ++ " *" ++ structName ++ ") Build () *" ++ seedType.Name
    ++ " \x7b\n")
  WriteString ("return &" ++ seedType.Name ++ "\x7b\n")
  forFields seedType.Fields (fun f => do
    let fpub ← toPublic tbl (f.Name ++ ",\n")
    WriteString (f.Name ++ ": " ++ rcvr ++ "." ++ fpub))
  WriteString "\x7d"
  WriteString "\n\x7d\n"

/-- Source `genBuilder`, up to the last write; the `goimports` run that
follows is an external process.  The run starts with no text. -/
def genBuilder (tbl : CaseTables) (pathSeparator : String) (seedType : SeedType) : Res Unit :=
  (do
    let fileName ← toPrivate tbl seedType.Name
    createFile path (fileName ++ "builder")
    writePackage pathSeparator path
    let structName ← writeBuilderStruct tbl seedType
    writeConstructor tbl structName
    forFields seedType.Fields (fun field => writeSetter tbl structName field)
    writeBuildMethod tbl structName seedType : Gen Unit) ""

/-- Source `genImmutable`, lines 59-68: the statements up to and including
the getter loop.  The next statement of the source,
`writeAsBuilderMethod(file, seedType)`, gives two arguments to a function
declared with three (`file`, `structName`, `seedType`): it does not
type-check, the callee receives no struct name, and the statement has no
behaviour to embed.  Nothing is written after the getters. -/
def genImmutable (tbl : CaseTables) (pathSeparator : String) (seedType : SeedType) : Res Unit :=
  (do
    let fname ← toPrivate tbl seedType.Name
    createFile path fname
    writePackage pathSeparator path
    let structName ← writeStruct seedType
    writeConstructor tbl structName
    forFields seedType.Fields (fun field => writeGetter tbl structName field) : Gen Unit) ""

/-- The sample struct `Jason` of the source, as `reflect.TypeOf(Jason{})`. -/
def Jason : SeedType :=
  { Name := "Jason"
    Fields :=
      [ ⟨"t", "time.Time"⟩, ⟨"boolean", "bool"⟩, ⟨"floater", "float64"⟩,
        ⟨"reader", "io.Reader"⟩, ⟨"integer", "int"⟩, ⟨"integer32", "int32"⟩,
        ⟨"integer64", "int64"⟩ ] }

/-- A case table that leaves every non-ASCII rune alone; used for concrete
runs on ASCII input, where the table is never consulted. -/
def idTables : CaseTables := ⟨fun r => r, fun r => r⟩

/-- The value returned by `m` when run on an empty file (the empty string if
`m` panics). -/
def Gen.value (m : Gen String) : String :=
  match m "" with
  | Res.ok v _ => v
  | Res.panic _ => ""

/-! ## Copy lists of the conversion methods -/

/-- One initializer `target: rcvr.source,` of the composite literal returned
by a conversion method: field `target` of the new value is set from field
`source` of the receiver. -/
structure CopyEntry where
  target : String
  source : String
  deriving DecidableEq, Repr

/-- The line a conversion method writes for one entry, with receiver
`rcvr`. -/
def copyLine (rcvr : String) (e : CopyEntry) : String :=
  e.target ++ ": " ++ rcvr ++ "." ++ e.source ++ ",\n"

/-- The entries written by the loop of `writeAsBuilderMethod`: builder field
`toPublic(field.Name)` is set from receiver field `field.Name`. -/
def asBuilderCopies (tbl : CaseTables) (seedType : SeedType) : List CopyEntry :=
  seedType.Fields.map (fun field => ⟨(toPublic tbl field.Name).value, field.Name⟩)

/-- The entries written by the loop of `writeBuildMethod`: immutable field
`f.Name` is set from builder field `toPublic(f.Name)`. -/
def buildCopies (tbl : CaseTables) (seedType : SeedType) : List CopyEntry :=
  seedType.Fields.map (fun f => ⟨f.Name, (toPublic tbl f.Name).value⟩)

/-- A copy list read as field-to-field assignments, performed in order on
`dst`: `dst.target = src.source`. -/
def runCopies {V : Type} (entries : List CopyEntry) (src dst : String → V) : String → V :=
  entries.foldl (fun acc e => fun k => if k = e.target then src e.source else acc k) dst

/-- The fields of `v.AsBuilder().Build()`: the copy list of `AsBuilder` fills
a fresh builder from `v`, the copy list of `Build` fills a fresh immutable
value from that builder; `zero` is the value of a field not yet assigned. -/
def roundTrip {V : Type} (tbl : CaseTables) (seedType : SeedType) (zero : V) (v : String → V) :
    String → V :=
  runCopies (buildCopies tbl seedType)
    (runCopies (asBuilderCopies tbl seedType) v (fun _ => zero)) (fun _ => zero)

/-! ## Members of the generated builder -/

/-- The member name `toPublic(field.Name)` that `writeBuilderStruct` declares
for a field; `writeGetter` gives the getter of the field the same name. -/
def memberName (tbl : CaseTables) (field : StructField) : String :=
  (toPublic tbl field.Name).value

/-- The method name `"Set" + fxName` that `writeSetter` declares for a
field. -/
def setterName (tbl : CaseTables) (field : StructField) : String :=
  "Set" ++ (toPublic tbl field.Name).value

/-- The names `genBuilder` declares inside the builder type: the fields of
`writeBuilderStruct`, the methods of `writeSetter` and the method `Build` of
`writeBuildMethod`. -/
def builderMembers (tbl : CaseTables) (seedType : SeedType) : List String :=
  seedType.Fields.map (memberName tbl) ++ seedType.Fields.map (setterName tbl) ++ ["Build"]

/-! ## Running generator code -/

@[simp] theorem Gen.run_pure {α : Type} (a : α) (file : String) :
    (Pure.pure a : Gen α) file = Res.ok a file := rfl

theorem Gen.run_bind {α β : Type} (m : Gen α) (k : α → Gen β) (file : String) :
    (m >>= k) file = Gen.bind m k file := rfl

@[simp] theorem Gen.run_bind_ok {α β : Type} (m : Gen α) (k : α → Gen β) (file file1 : String)
    (a : α) (h : m file = Res.ok a file1) : (m >>= k) file = k a file1 := by
  simp [Gen.run_bind, Gen.bind, h]

theorem Gen.run_bind_panic {α β : Type} (m : Gen α) (k : α → Gen β) (file file1 : String)
    (h : m file = Res.panic file1) : (m >>= k) file = Res.panic file1 := by
  simp [Gen.run_bind, Gen.bind, h]

@[simp] theorem WriteString_run (s file : String) :
    WriteString s file = Res.ok () (file ++ s) := rfl

@[simp] theorem index0_cons {α : Type} (x : α) (xs : List α) (file : String) :
    index0 (x :: xs) file = Res.ok x file := rfl

@[simp] theorem index0_nil {α : Type} (file : String) :
    index0 ([] : List α) file = Res.panic file := rfl

/-! ## Naming utility -/

theorem toPublic_mk_cons (tbl : CaseTables) (c : Char) (cs : List Char) (file : String) :
    toPublic tbl (String.mk (c :: cs)) file
      = Res.ok (String.mk (unicode.ToUpper tbl c :: cs)) file := by
  simp [toPublic, strings.ToUpper, Gen.run_bind, Gen.bind]

theorem toPrivate_mk_cons (tbl : CaseTables) (c : Char) (cs : List Char) (file : String) :
    toPrivate tbl (String.mk (c :: cs)) file
      = Res.ok (String.mk (unicode.ToLower tbl c :: cs)) file := by
  simp [toPrivate, strings.ToLower, Gen.run_bind, Gen.bind]

theorem toPublic_empty (tbl : CaseTables) (file : String) :
    toPublic tbl "" file = Res.panic file := by
  simp [toPublic, Gen.run_bind, Gen.bind]

theorem toPrivate_empty (tbl : CaseTables) (file : String) :
    toPrivate tbl "" file = Res.panic file := by
  simp [toPrivate, Gen.run_bind, Gen.bind]

/-- A string is non-empty exactly when it has a first rune. -/
theorem exists_cons_of_ne_empty (s : String) (h : s ≠ "") :
    ∃ c cs, s = String.mk (c :: cs) := by
  rcases s with ⟨_ | ⟨c, cs⟩⟩
  · exact absurd rfl h
  · exact ⟨c, cs, rfl⟩

theorem toPublic_ok (tbl : CaseTables) (name file : String) (h : name ≠ "") :
    toPublic tbl name file = Res.ok (toPublic tbl name).value file := by
  obtain ⟨c, cs, rfl⟩ := exists_cons_of_ne_empty name h
  simp [Gen.value, toPublic_mk_cons]

theorem toPrivate_ok (tbl : CaseTables) (name file : String) (h : name ≠ "") :
    toPrivate tbl name file = Res.ok (toPrivate tbl name).value file := by
  obtain ⟨c, cs, rfl⟩ := exists_cons_of_ne_empty name h
  simp [Gen.value, toPrivate_mk_cons]

theorem toPublic_value_mk_cons (tbl : CaseTables) (c : Char) (cs : List Char) :
    (toPublic tbl (String.mk (c :: cs))).value = String.mk (unicode.ToUpper tbl c :: cs) := by
  simp [Gen.value, toPublic_mk_cons]

theorem receiver_mk_cons (tbl : CaseTables) (c : Char) (cs : List Char) (file : String) :
    receiver tbl (String.mk (c :: cs)) file
      = Res.ok (String.mk [unicode.ToLower tbl c]) file := by
  simp [receiver, strings.ToLower, Gen.run_bind, Gen.bind]

theorem receiver_empty (tbl : CaseTables) (file : String) :
    receiver tbl "" file = Res.panic file := by
  simp [receiver, Gen.run_bind, Gen.bind]

theorem receiver_ok (tbl : CaseTables) (structName file : String) (h : structName ≠ "") :
    receiver tbl structName file = Res.ok (receiver tbl structName).value file := by
  obtain ⟨c, cs, rfl⟩ := exists_cons_of_ne_empty structName h
  simp [Gen.value, receiver_mk_cons]

/-- The receiver is the lower-cased first character of the struct name. -/
theorem receiver_value_head (tbl : CaseTables) (structName : String) (h : structName ≠ "") :
    structName.data.head?.map (fun c => String.mk [unicode.ToLower tbl c])
      = some (receiver tbl structName).value := by
  obtain ⟨c, cs, rfl⟩ := exists_cons_of_ne_empty structName h
  simp [Gen.value, receiver_mk_cons]

theorem String.join_cons_eq (a : String) (l : List String) :
    String.join (a :: l) = a ++ String.join l := by
  apply String.ext
  simp [String.data_join]

/-- A loop whose body appends `g f` for every field `f` appends the lines
`g f` of all fields, in order. -/
theorem forFields_append {α : Type} (fs : List α) (body : α → Gen Unit) (g : α → String)
    (h : ∀ f ∈ fs, ∀ file, body f file = Res.ok () (file ++ g f)) (file : String) :
    forFields fs body file = Res.ok () (file ++ String.join (fs.map g)) := by
  induction fs generalizing file with
  | nil => simp [forFields, Gen.pure, String.join]
  | cons f fs ih =>
    have hf := h f (List.mem_cons_self f fs) file
    have ih1 := ih (fun x hx => h x (List.mem_cons_of_mem f hx)) (file ++ g f)
    simp [forFields, Gen.bind, hf, ih1, String.join_cons_eq, String.append_assoc]

/-- Upper-casing a non-empty name followed by a suffix only touches the
name. -/
theorem toPublic_append (tbl : CaseTables) (name suffix file : String) (h : name ≠ "") :
    toPublic tbl (name ++ suffix) file
      = Res.ok ((toPublic tbl name).value ++ suffix) file := by
  obtain ⟨c, cs, rfl⟩ := exists_cons_of_ne_empty name h
  have e : String.mk (c :: cs) ++ suffix = String.mk (c :: (cs ++ suffix.data)) := by
    apply String.ext
    simp
  have e2 : String.mk (unicode.ToUpper tbl c :: cs) ++ suffix
      = String.mk (unicode.ToUpper tbl c :: (cs ++ suffix.data)) := by
    apply String.ext
    simp
  rw [e, toPublic_mk_cons, toPublic_value_mk_cons, e2]

/-! ## Emission primitives -/

theorem writeConstructor_run (tbl : CaseTables) (S file : String) (hS : S ≠ "") :
    writeConstructor tbl S file
      = Res.ok () (file ++ ("\nfunc New" ++ (toPublic tbl S).value ++ "() *" ++ S
          ++ " \x7b\nreturn new(" ++ S ++ ") \n\x7d\n")) := by
  have e : (" \x7b\nreturn new(" : String) = " \x7b\n" ++ "return new(" := by decide
  simp only [writeConstructor, Gen.run_bind, Gen.bind, toPublic_ok tbl S _ hS, WriteString_run]
  rw [e]
  simp only [String.append_assoc]

theorem writeBuilderStruct_run (tbl : CaseTables) (T : String) (fields : List StructField)
    (file : String) (hT : T ≠ "") (hf : ∀ f ∈ fields, f.Name ≠ "") :
    writeBuilderStruct tbl ⟨T, fields⟩ file
      = Res.ok ((toPublic tbl T).value ++ "Builder")
          (file ++ ("type " ++ ((toPublic tbl T).value ++ "Builder") ++ " struct\x7b\n"
            ++ String.join (fields.map (fun f =>
                (toPublic tbl f.Name).value ++ " " ++ f.TypeString ++ "\n"))
            ++ "\x7d")) := by
  have loop := fun file1 => forFields_append fields
    (fun field => do
      let fpub ← toPublic tbl field.Name
      WriteString (fpub ++ " " ++ field.TypeString ++ "\n"))
    (fun f => (toPublic tbl f.Name).value ++ " " ++ f.TypeString ++ "\n")
    (fun f hmem file2 => by
      simp [Gen.run_bind, Gen.bind, toPublic_ok tbl f.Name _ (hf f hmem)]) file1
  simp only [writeBuilderStruct, Gen.run_bind, Gen.bind, toPublic_ok tbl T _ hT, loop,
    WriteString_run, Gen.run_pure]
  simp [String.append_assoc]

theorem writeStruct_run (T : String) (fields : List StructField) (file : String) :
    writeStruct ⟨T, fields⟩ file
      = Res.ok T
          (file ++ ("type " ++ T ++ " struct\x7b\n"
            ++ String.join (fields.map (fun f => f.Name ++ " " ++ f.TypeString ++ "\n"))
            ++ "\x7d\n")) := by
  have loop := fun file1 => forFields_append fields
    (fun field => WriteString (field.Name ++ " " ++ field.TypeString ++ "\n"))
    (fun f => f.Name ++ " " ++ f.TypeString ++ "\n")
    (fun f _ file2 => by simp) file1
  simp only [writeStruct, Gen.run_bind, Gen.bind, loop, WriteString_run, Gen.run_pure]
  simp [String.append_assoc]

theorem writeSetter_run (tbl : CaseTables) (S n t file : String) (hS : S ≠ "") (hn : n ≠ "") :
    writeSetter tbl S ⟨n, t⟩ file
      = Res.ok () (file ++ ("\nfunc ( " ++ (receiver tbl S).value ++ " *" ++ S ++ ") Set"
          ++ (toPublic tbl n).value ++ "(" ++ n ++ " " ++ t ++ ") *" ++ S ++ " \x7b\n"
          ++ (receiver tbl S).value ++ "." ++ (toPublic tbl n).value ++ "=" ++ n
          ++ "\nreturn " ++ (receiver tbl S).value ++ "\n\x7d\n")) := by
  simp only [writeSetter, Gen.run_bind, Gen.bind, receiver_ok tbl S _ hS,
    toPublic_ok tbl n _ hn, WriteString_run]
  simp [String.append_assoc]

theorem writeGetter_run (tbl : CaseTables) (S n t file : String) (hS : S ≠ "") (hn : n ≠ "") :
    writeGetter tbl S ⟨n, t⟩ file
      = Res.ok () (file ++ ("\nfunc ( " ++ (receiver tbl S).value ++ " *" ++ S ++ ") "
          ++ (toPublic tbl n).value ++ "()" ++ t ++ " \x7b\nreturn " ++ (receiver tbl S).value
          ++ "." ++ n ++ "\n\x7d\n")) := by
  have e : (" \x7b\nreturn " : String) = " \x7b\n" ++ "return " := by decide
  simp only [writeGetter, Gen.run_bind, Gen.bind, receiver_ok tbl S _ hS,
    toPublic_ok tbl n _ hn, WriteString_run]
  rw [e]
  simp only [String.append_assoc]

theorem writeBuildMethod_run (tbl : CaseTables) (S T : String) (fields : List StructField)
    (file : String) (hS : S ≠ "") (hf : ∀ f ∈ fields, f.Name ≠ "") :
    writeBuildMethod tbl S ⟨T, fields⟩ file
      = Res.ok () (file ++ ("\nfunc ( " ++ (receiver tbl S).value ++ " *" ++ S ++ ") Build () *"
          ++ T ++ " \x7b\nreturn &" ++ T ++ "\x7b\n"
          ++ String.join (fields.map (fun f =>
              f.Name ++ ": " ++ (receiver tbl S).value ++ "." ++ (toPublic tbl f.Name).value
                ++ ",\n"))
          ++ "\x7d\n\x7d\n")) := by
  have loop := fun file1 => forFields_append fields
    (fun f => do
      let fpub ← toPublic tbl (f.Name ++ ",\n")
      WriteString (f.Name ++ ": " ++ (receiver tbl S).value ++ "." ++ fpub))
    (fun f => f.Name ++ ": " ++ (receiver tbl S).value ++ "." ++ (toPublic tbl f.Name).value
      ++ ",\n")
    (fun f hmem file2 => by
      simp only [Gen.run_bind, Gen.bind, toPublic_append tbl f.Name _ _ (hf f hmem),
        WriteString_run]
      simp [String.append_assoc]) file1
  have e : (" \x7b\nreturn &" : String) = " \x7b\n" ++ "return &" := by decide
  simp only [writeBuildMethod, Gen.run_bind, Gen.bind, receiver_ok tbl S _ hS, loop,
    WriteString_run]
  rw [e]
  simp only [String.append_assoc]
  simp

theorem writeAsBuilderMethod_run (tbl : CaseTables) (S T : String) (fields : List StructField)
    (file : String) (hS : S ≠ "") (hf : ∀ f ∈ fields, f.Name ≠ "") :
    writeAsBuilderMethod tbl S ⟨T, fields⟩ file
      = Res.ok () (file ++ ("\nfunc ( " ++ (receiver tbl S).value ++ " *" ++ S
          ++ ") AsBuilder() *" ++ (S ++ "Builder") ++ " \x7b\nreturn &" ++ (S ++ "Builder")
          ++ "\x7b\n"
          ++ String.join (fields.map (fun f =>
              (toPublic tbl f.Name).value ++ ": " ++ (receiver tbl S).value ++ "." ++ f.Name
                ++ ",\n"))
          ++ "\x7d\n\x7d\n")) := by
  have loop := fun file1 => forFields_append fields
    (fun field => do
      let fpub ← toPublic tbl field.Name
      WriteString (fpub ++ ": " ++ (receiver tbl S).value ++ "." ++ field.Name ++ ",\n"))
    (fun f => (toPublic tbl f.Name).value ++ ": " ++ (receiver tbl S).value ++ "." ++ f.Name
      ++ ",\n")
    (fun f hmem file2 => by
      simp [Gen.run_bind, Gen.bind, toPublic_ok tbl f.Name _ (hf f hmem)]) file1
  have e : (" \x7b\nreturn &" : String) = " \x7b\n" ++ "return &" := by decide
  simp only [writeAsBuilderMethod, Gen.run_bind, Gen.bind, receiver_ok tbl S _ hS, loop,
    WriteString_run]
  rw [e]
  simp only [String.append_assoc]

/-! ## Copy lists -/

theorem runCopies_of_not_mem {V : Type} (entries : List CopyEntry) (src dst : String → V)
    (k : String) (h : k ∉ entries.map CopyEntry.target) :
    runCopies entries src dst k = dst k := by
  induction entries generalizing dst with
  | nil => rfl
  | cons a l ih =>
    have hk : k ≠ a.target := fun e => h (by simp [e])
    have hl : k ∉ l.map CopyEntry.target := fun m => h (by simp [m])
    have step := ih (fun k => if k = a.target then src a.source else dst k) hl
    simp only [runCopies, List.foldl_cons] at step ⊢
    rw [step, if_neg hk]

/-- With pairwise distinct targets, every entry of a copy list takes effect. -/
theorem runCopies_of_mem {V : Type} (entries : List CopyEntry) (src dst : String → V)
    (e : CopyEntry) (hd : (entries.map CopyEntry.target).Nodup) (he : e ∈ entries) :
    runCopies entries src dst e.target = src e.source := by
  induction entries generalizing dst with
  | nil => exact absurd he (List.not_mem_nil e)
  | cons a l ih =>
    rw [List.map_cons, List.nodup_cons] at hd
    rcases List.mem_cons.mp he with rfl | hl
    · have step := runCopies_of_not_mem l src
        (fun k => if k = e.target then src e.source else dst k) e.target hd.1
      simp only [runCopies, List.foldl_cons] at step ⊢
      rw [step]
      simp
    · have step := ih (fun k => if k = a.target then src a.source else dst k) hd.2 hl
      simp only [runCopies, List.foldl_cons] at step ⊢
      exact step

theorem roundTrip_field {V : Type} (tbl : CaseTables) (T : String)
    (fields : List StructField) (zero : V) (v : String → V)
    (hd : (fields.map (fun f => (toPublic tbl f.Name).value)).Nodup)
    (f : StructField) (hf : f ∈ fields) :
    roundTrip tbl ⟨T, fields⟩ zero v f.Name = v f.Name := by
  have hb : ((buildCopies tbl ⟨T, fields⟩).map CopyEntry.target).Nodup := by
    have e : (buildCopies tbl ⟨T, fields⟩).map CopyEntry.target
        = fields.map StructField.Name := by
      simp [buildCopies, Function.comp_def]
    have e2 : fields.map (fun f => (toPublic tbl f.Name).value)
        = (fields.map StructField.Name).map (fun n => (toPublic tbl n).value) := by
      simp [Function.comp_def]
    rw [e]
    rw [e2] at hd
    exact List.Nodup.of_map _ hd
  have ha : ((asBuilderCopies tbl ⟨T, fields⟩).map CopyEntry.target).Nodup := by
    have e : (asBuilderCopies tbl ⟨T, fields⟩).map CopyEntry.target
        = fields.map (fun f => (toPublic tbl f.Name).value) := by
      simp [asBuilderCopies, Function.comp_def]
    rw [e]
    exact hd
  have mb : (⟨f.Name, (toPublic tbl f.Name).value⟩ : CopyEntry) ∈ buildCopies tbl ⟨T, fields⟩ :=
    List.mem_map.mpr ⟨f, hf, rfl⟩
  have ma : (⟨(toPublic tbl f.Name).value, f.Name⟩ : CopyEntry)
      ∈ asBuilderCopies tbl ⟨T, fields⟩ :=
    List.mem_map.mpr ⟨f, hf, rfl⟩
  have s1 := runCopies_of_mem (buildCopies tbl ⟨T, fields⟩)
    (runCopies (asBuilderCopies tbl ⟨T, fields⟩) v (fun _ => zero)) (fun _ => zero) _ hb mb
  have s2 := runCopies_of_mem (asBuilderCopies tbl ⟨T, fields⟩) v (fun _ => zero) _ ha ma
  simp only at s1 s2
  rw [roundTrip, s1, s2]

/-! ## The package line -/

theorem splitLoop_ne_nil (sep : List Char) (fuel : Nat) (s cur : List Char) :
    strings.splitLoop sep fuel s cur ≠ [] := by
  induction fuel generalizing s cur with
  | zero => simp [strings.splitLoop]
  | succ n ih =>
    cases s with
    | nil => simp [strings.splitLoop]
    | cons c cs =>
      simp only [strings.splitLoop]
      split
      · simp
      · exact ih cs (c :: cur)

/-- Splitting the constant `path` yields at least one segment, whatever the
separator. -/
theorem Split_path_ne_nil (sep : String) : strings.Split path sep ≠ [] := by
  unfold strings.Split
  split
  · have h : path.data ≠ [] := by decide
    simpa using h
  · simpa using splitLoop_ne_nil sep.data (path.data.length + 1) path.data []

theorem writePackage_path_run (sep : String) :
    ∃ pkg, (strings.Split path sep).getLast? = some pkg
      ∧ ∀ file, writePackage sep path file = Res.ok () (file ++ ("package " ++ pkg ++ "\n")) := by
  cases h : (strings.Split path sep).getLast? with
  | none => exact absurd (List.getLast?_eq_none_iff.mp h) (Split_path_ne_nil sep)
  | some pkg =>
    refine ⟨pkg, rfl, fun file => ?_⟩
    simp [writePackage, indexLast, Gen.run_bind, Gen.bind, h, String.append_assoc]

theorem append_ne_empty (a b : String) (h : b ≠ "") : a ++ b ≠ "" := by
  intro e
  have e1 : (a ++ b).data = [] := by rw [e]
  rw [String.data_append, List.append_eq_nil] at e1
  exact h (String.ext e1.2)

/-! ## The two pipelines -/

theorem writePackage_run (sep p pkg : String) (h : (strings.Split p sep).getLast? = some pkg)
    (file : String) :
    writePackage sep p file = Res.ok () (file ++ ("package " ++ pkg ++ "\n")) := by
  simp [writePackage, indexLast, Gen.run_bind, Gen.bind, h, String.append_assoc]

theorem forFields_setters (tbl : CaseTables) (S : String) (fields : List StructField)
    (hS : S ≠ "") (hf : ∀ f ∈ fields, f.Name ≠ "") (file : String) :
    forFields fields (fun field => writeSetter tbl S field) file
      = Res.ok () (file ++ String.join (fields.map (fun f =>
          "\nfunc ( " ++ (receiver tbl S).value ++ " *" ++ S ++ ") Set"
          ++ (toPublic tbl f.Name).value ++ "(" ++ f.Name ++ " " ++ f.TypeString ++ ") *" ++ S
          ++ " \x7b\n" ++ (receiver tbl S).value ++ "." ++ (toPublic tbl f.Name).value ++ "="
          ++ f.Name ++ "\nreturn " ++ (receiver tbl S).value ++ "\n\x7d\n"))) :=
  forFields_append fields (fun field => writeSetter tbl S field) _
    (fun f hmem file1 => writeSetter_run tbl S f.Name f.TypeString file1 hS (hf f hmem)) file

theorem forFields_getters (tbl : CaseTables) (S : String) (fields : List StructField)
    (hS : S ≠ "") (hf : ∀ f ∈ fields, f.Name ≠ "") (file : String) :
    forFields fields (fun field => writeGetter tbl S field) file
      = Res.ok () (file ++ String.join (fields.map (fun f =>
          "\nfunc ( " ++ (receiver tbl S).value ++ " *" ++ S ++ ") "
          ++ (toPublic tbl f.Name).value ++ "()" ++ f.TypeString ++ " \x7b\nreturn "
          ++ (receiver tbl S).value ++ "." ++ f.Name ++ "\n\x7d\n"))) :=
  forFields_append fields (fun field => writeGetter tbl S field) _
    (fun f hmem file1 => writeGetter_run tbl S f.Name f.TypeString file1 hS (hf f hmem)) file

/-- The whole text of the builder artifact, writer by writer. -/
theorem genBuilder_run (tbl : CaseTables) (sep T pkg : String) (fields : List StructField)
    (hpkg : (strings.Split path sep).getLast? = some pkg)
    (hT : T ≠ "") (hf : ∀ f ∈ fields, f.Name ≠ "") (B : String)
    (hB : B = (toPublic tbl T).value ++ "Builder") :
    genBuilder tbl sep ⟨T, fields⟩
      = Res.ok () (("package " ++ pkg ++ "\n")
          ++ ("type " ++ B ++ " struct\x7b\n"
            ++ String.join (fields.map (fun f =>
                (toPublic tbl f.Name).value ++ " " ++ f.TypeString ++ "\n"))
            ++ "\x7d")
          ++ ("\nfunc New" ++ (toPublic tbl B).value ++ "() *" ++ B
            ++ " \x7b\nreturn new(" ++ B ++ ") \n\x7d\n")
          ++ String.join (fields.map (fun f =>
              "\nfunc ( " ++ (receiver tbl B).value ++ " *" ++ B ++ ") Set"
              ++ (toPublic tbl f.Name).value ++ "(" ++ f.Name ++ " " ++ f.TypeString ++ ") *" ++ B
              ++ " \x7b\n" ++ (receiver tbl B).value ++ "." ++ (toPublic tbl f.Name).value ++ "="
              ++ f.Name ++ "\nreturn " ++ (receiver tbl B).value ++ "\n\x7d\n"))
          ++ ("\nfunc ( " ++ (receiver tbl B).value ++ " *" ++ B ++ ") Build () *"
            ++ T ++ " \x7b\nreturn &" ++ T ++ "\x7b\n"
            ++ String.join (fields.map (fun f =>
                f.Name ++ ": " ++ (receiver tbl B).value ++ "." ++ (toPublic tbl f.Name).value
                  ++ ",\n"))
            ++ "\x7d\n\x7d\n")) := by
  have hne : B ≠ "" := by
    rw [hB]
    exact append_ne_empty _ _ (by decide)
  have hstruct := fun file => writeBuilderStruct_run tbl T fields file hT hf
  rw [← hB] at hstruct
  simp only [genBuilder, Gen.run_bind, Gen.bind, toPrivate_ok tbl T _ hT, createFile,
    writePackage_run sep path pkg hpkg, hstruct, writeConstructor_run tbl B _ hne,
    forFields_setters tbl B fields hne hf, writeBuildMethod_run tbl B T fields _ hne hf]
  simp only [String.empty_append, String.append_assoc]

/-- The text written by the statements of `genImmutable`, writer by
writer. -/
theorem genImmutable_run (tbl : CaseTables) (sep T pkg : String) (fields : List StructField)
    (hpkg : (strings.Split path sep).getLast? = some pkg)
    (hT : T ≠ "") (hf : ∀ f ∈ fields, f.Name ≠ "") :
    genImmutable tbl sep ⟨T, fields⟩
      = Res.ok () (("package " ++ pkg ++ "\n")
          ++ ("type " ++ T ++ " struct\x7b\n"
            ++ String.join (fields.map (fun f => f.Name ++ " " ++ f.TypeString ++ "\n"))
            ++ "\x7d\n")
          ++ ("\nfunc New" ++ (toPublic tbl T).value ++ "() *" ++ T
            ++ " \x7b\nreturn new(" ++ T ++ ") \n\x7d\n")
          ++ String.join (fields.map (fun f =>
              "\nfunc ( " ++ (receiver tbl T).value ++ " *" ++ T ++ ") "
              ++ (toPublic tbl f.Name).value ++ "()" ++ f.TypeString ++ " \x7b\nreturn "
              ++ (receiver tbl T).value ++ "." ++ f.Name ++ "\n\x7d\n"))) := by
  simp only [genImmutable, Gen.run_bind, Gen.bind, toPrivate_ok tbl T _ hT, createFile,
    writePackage_run sep path pkg hpkg, writeStruct_run T fields, writeConstructor_run tbl T _ hT,
    forFields_getters tbl T fields hT hf]
  simp only [String.empty_append, String.append_assoc]

/-! ## Panics inside the loops -/

/-- A loop whose bodies only append text, and one of whose bodies panics,
panics; the text written before the loop is kept. -/
theorem forFields_panics {α : Type} (fs : List α) (body : α → Gen Unit)
    (hbody : ∀ f ∈ fs, ∀ file,
      (∃ t, body f file = Res.ok () (file ++ t)) ∨ (∃ t, body f file = Res.panic (file ++ t)))
    (hbad : ∃ f ∈ fs, ∀ file, ∃ t, body f file = Res.panic (file ++ t)) (file : String) :
    ∃ t, forFields fs body file = Res.panic (file ++ t) := by
  induction fs generalizing file with
  | nil =>
    obtain ⟨f, hmem, _⟩ := hbad
    exact absurd hmem (List.not_mem_nil f)
  | cons a l ih =>
    rcases hbody a (List.mem_cons_self a l) file with ⟨t, hok⟩ | ⟨t, hp⟩
    · obtain ⟨f, hmem, hf⟩ := hbad
      rcases List.mem_cons.mp hmem with rfl | hl
      · obtain ⟨t1, hp⟩ := hf file
        rw [hok] at hp
        exact absurd hp (by simp)
      · obtain ⟨t1, h1⟩ := ih (fun x hx => hbody x (List.mem_cons_of_mem a hx)) ⟨f, hl, hf⟩
          (file ++ t)
        refine ⟨t ++ t1, ?_⟩
        simp [forFields, Gen.bind, hok, h1, String.append_assoc]
    · exact ⟨t, by simp [forFields, Gen.bind, hp]⟩

theorem builderMember_appends (tbl : CaseTables) (f : StructField) (file : String) :
    (∃ t, (do
        let fpub ← toPublic tbl f.Name
        WriteString (fpub ++ " " ++ f.TypeString ++ "\n") : Gen Unit) file
          = Res.ok () (file ++ t))
    ∨ (∃ t, (do
        let fpub ← toPublic tbl f.Name
        WriteString (fpub ++ " " ++ f.TypeString ++ "\n") : Gen Unit) file
          = Res.panic (file ++ t)) := by
  by_cases h : f.Name = ""
  · exact Or.inr ⟨"", by simp [Gen.run_bind, Gen.bind, h, toPublic_empty]⟩
  · exact Or.inl ⟨(toPublic tbl f.Name).value ++ " " ++ f.TypeString ++ "\n", by
      simp only [Gen.run_bind, Gen.bind, toPublic_ok tbl f.Name _ h, WriteString_run]⟩

theorem writeGetter_appends (tbl : CaseTables) (S : String) (hS : S ≠ "") (f : StructField)
    (file : String) :
    (∃ t, writeGetter tbl S f file = Res.ok () (file ++ t))
    ∨ (∃ t, writeGetter tbl S f file = Res.panic (file ++ t)) := by
  by_cases h : f.Name = ""
  · exact Or.inr ⟨"", by
      simp [writeGetter, Gen.run_bind, Gen.bind, receiver_ok tbl S _ hS, h, toPublic_empty]⟩
  · exact Or.inl ⟨_, writeGetter_run tbl S f.Name f.TypeString file hS h⟩

theorem genBuilder_panic_of_empty_field (tbl : CaseTables) (sep T pkg : String)
    (fields : List StructField) (hpkg : (strings.Split path sep).getLast? = some pkg)
    (hT : T ≠ "") (hbad : ∃ f ∈ fields, f.Name = "") :
    ∃ rest, genBuilder tbl sep ⟨T, fields⟩ = Res.panic ("package " ++ pkg ++ "\n" ++ rest) := by
  obtain ⟨f, hmem, hname⟩ := hbad
  obtain ⟨t, ht⟩ := forFields_panics fields
    (fun field => do
      let fpub ← toPublic tbl field.Name
      WriteString (fpub ++ " " ++ field.TypeString ++ "\n"))
    (fun x _ file => builderMember_appends tbl x file)
    ⟨f, hmem, fun file => ⟨"", by simp [Gen.run_bind, Gen.bind, hname, toPublic_empty]⟩⟩
    ("" ++ ("package " ++ pkg ++ "\n")
      ++ ("type " ++ ((toPublic tbl T).value ++ "Builder") ++ " struct\x7b\n"))
  refine ⟨"type " ++ ((toPublic tbl T).value ++ "Builder") ++ " struct\x7b\n" ++ t, ?_⟩
  simp only [genBuilder, writeBuilderStruct, Gen.run_bind, Gen.bind, toPrivate_ok tbl T _ hT,
    createFile, writePackage_run sep path pkg hpkg, toPublic_ok tbl T _ hT, WriteString_run, ht]
  simp only [String.empty_append, String.append_assoc]

theorem genImmutable_panic_of_empty_field (tbl : CaseTables) (sep T pkg : String)
    (fields : List StructField) (hpkg : (strings.Split path sep).getLast? = some pkg)
    (hT : T ≠ "") (hbad : ∃ f ∈ fields, f.Name = "") :
    ∃ rest, genImmutable tbl sep ⟨T, fields⟩
      = Res.panic ("package " ++ pkg ++ "\n" ++ rest) := by
  obtain ⟨f, hmem, hname⟩ := hbad
  have hctor := fun file => writeConstructor_run tbl T file hT
  have hstruct := fun file => writeStruct_run T fields file
  obtain ⟨t, ht⟩ := forFields_panics fields (fun field => writeGetter tbl T field)
    (fun x _ file => writeGetter_appends tbl T hT x file)
    ⟨f, hmem, fun file => ⟨"", by
      simp [writeGetter, Gen.run_bind, Gen.bind, receiver_ok tbl T _ hT, hname,
        toPublic_empty]⟩⟩
    ("" ++ ("package " ++ pkg ++ "\n")
      ++ ("type " ++ T ++ " struct\x7b\n"
        ++ String.join (fields.map (fun f => f.Name ++ " " ++ f.TypeString ++ "\n")) ++ "\x7d\n")
      ++ ("\nfunc New" ++ (toPublic tbl T).value ++ "() *" ++ T
          ++ " \x7b\nreturn new(" ++ T ++ ") \n\x7d\n"))
  refine ⟨("type " ++ T ++ " struct\x7b\n"
        ++ String.join (fields.map (fun f => f.Name ++ " " ++ f.TypeString ++ "\n")) ++ "\x7d\n")
      ++ ("\nfunc New" ++ (toPublic tbl T).value ++ "() *" ++ T
          ++ " \x7b\nreturn new(" ++ T ++ ") \n\x7d\n") ++ t, ?_⟩
  simp only [genImmutable, Gen.run_bind, Gen.bind, toPrivate_ok tbl T _ hT,
    createFile, writePackage_run sep path pkg hpkg, hstruct, hctor, ht]
  simp only [String.empty_append, String.append_assoc]

/-! ## Receiver and member names -/

theorem receiver_value_length (tbl : CaseTables) (S : String) (hS : S ≠ "") :
    (receiver tbl S).value.length = 1 := by
  obtain ⟨c, cs, rfl⟩ := exists_cons_of_ne_empty S hS
  simp [Gen.value, receiver_mk_cons, String.length]

/-- Two non-empty names with the same public form have the same characters
after the first and first characters with the same upper-case form. -/
theorem toPublic_value_eq (tbl : CaseTables) (a b : String) (ha : a ≠ "") (hb : b ≠ "")
    (h : (toPublic tbl a).value = (toPublic tbl b).value) :
    a.data.head?.map (unicode.ToUpper tbl) = b.data.head?.map (unicode.ToUpper tbl)
      ∧ a.data.tail = b.data.tail := by
  obtain ⟨c, cs, rfl⟩ := exists_cons_of_ne_empty a ha
  obtain ⟨d, ds, rfl⟩ := exists_cons_of_ne_empty b hb
  rw [toPublic_value_mk_cons, toPublic_value_mk_cons] at h
  have e := congrArg String.data h
  simp only [List.cons.injEq] at e
  simp [e.1, e.2]

theorem append_left_cancel (p a b : String) (h : p ++ a = p ++ b) : a = b := by
  have e := congrArg String.data h
  rw [String.data_append, String.data_append] at e
  exact String.ext (List.append_cancel_left e)

/-! ## Splitting a path -/

/-- Without an occurrence of the separator the whole string is one segment. -/
theorem splitLoop_of_not_infix (sep : List Char) (s : List Char) (fuel : Nat) (cur : List Char)
    (h : ¬ sep <:+: s) (hfuel : s.length ≤ fuel) :
    strings.splitLoop sep fuel s cur = [cur.reverse ++ s] := by
  induction s generalizing fuel cur with
  | nil => cases fuel <;> simp [strings.splitLoop]
  | cons c cs ih =>
    cases fuel with
    | zero => simp at hfuel
    | succ n =>
      have hp : sep.isPrefixOf (c :: cs) = false := by
        cases hb : sep.isPrefixOf (c :: cs) with
        | false => rfl
        | true => exact absurd (List.isPrefixOf_iff_prefix.mp hb).isInfix h
      have hcs : ¬ sep <:+: cs := fun hi => h (hi.trans (List.suffix_cons c cs).isInfix)
      have step := ih n (c :: cur) hcs (by simpa using hfuel)
      simp [strings.splitLoop, hp, step]

/-- With a one-character separator, a string that ends with the separator has
an empty last segment. -/
theorem splitLoop_last_of_suffix (d : Char) (q : List Char) (fuel : Nat) (cur : List Char)
    (hfuel : (q ++ [d]).length ≤ fuel) :
    (strings.splitLoop [d] fuel (q ++ [d]) cur).getLast? = some [] := by
  induction q generalizing fuel cur with
  | nil =>
    cases fuel with
    | zero => simp at hfuel
    | succ n => cases n <;> simp [strings.splitLoop]
  | cons c q ih =>
    cases fuel with
    | zero => simp at hfuel
    | succ n =>
      have hn : (q ++ [d]).length ≤ n := by simpa using hfuel
      by_cases hc : d = c
      · have step := ih n [] hn
        have hne := splitLoop_ne_nil [d] n (q ++ [d]) []
        simp [strings.splitLoop, hc, List.getLast?_cons_cons] at step ⊢
        cases hl : strings.splitLoop [c] n (q ++ [c]) [] with
        | nil => exact absurd (hc ▸ hl) hne
        | cons x xs =>
          rw [hl] at step
          simpa [List.getLast?_cons_cons] using step
      · have step := ih n (c :: cur) hn
        simpa [strings.splitLoop, hc] using step

theorem Split_ne_nil (s sep : String) (hsep : sep ≠ "") : strings.Split s sep ≠ [] := by
  have hd : sep.data ≠ [] := fun e => hsep (String.ext e)
  unfold strings.Split
  rw [if_neg (by simpa using hd)]
  simpa using splitLoop_ne_nil sep.data (s.data.length + 1) s.data []

/-! ## Upper-casing twice -/

theorem toNat_ofNat_lt (n : Nat) (h : n < 55296) : (Char.ofNat n).toNat = n := by
  have hv : n.isValidChar := Or.inl h
  simp only [Char.ofNat, hv, Char.ofNatAux, Char.toNat, dite_true]
  rfl

/-- On ASCII runes `unicode.ToUpper` is idempotent, whatever the case
table. -/
theorem ToUpper_ascii_idem (tbl : CaseTables) (r : Char) (h : r.toNat ≤ 127) :
    unicode.ToUpper tbl (unicode.ToUpper tbl r) = unicode.ToUpper tbl r := by
  have ha : 'a'.toNat = 97 := by decide
  have hz : 'z'.toNat = 122 := by decide
  unfold unicode.ToUpper
  rw [if_pos h]
  by_cases hl : 'a'.toNat ≤ r.toNat ∧ r.toNat ≤ 'z'.toNat
  · rw [if_pos hl]
    rw [ha, hz] at hl
    have e : (Char.ofNat (r.toNat - 32)).toNat = r.toNat - 32 := toNat_ofNat_lt _ (by omega)
    rw [e, ha, hz, if_pos (by omega), if_neg (by omega)]
  · rw [if_neg hl, if_pos h, if_neg hl]

/-- When the case table sends every non-ASCII rune to a rune that
`unicode.ToUpper` leaves alone, `unicode.ToUpper` is idempotent. -/
theorem ToUpper_idem (tbl : CaseTables)
    (hup : ∀ r : Char, 127 < r.toNat → unicode.ToUpper tbl (tbl.upper r) = tbl.upper r)
    (r : Char) : unicode.ToUpper tbl (unicode.ToUpper tbl r) = unicode.ToUpper tbl r := by
  by_cases h : r.toNat ≤ 127
  · exact ToUpper_ascii_idem tbl r h
  · have e : unicode.ToUpper tbl r = tbl.upper r := by
      unfold unicode.ToUpper
      rw [if_neg h]
    rw [e]
    exact hup r (by omega)

/-- The builder type name is its own public form. -/
theorem toPublic_builder_name (tbl : CaseTables)
    (hup : ∀ r : Char, 127 < r.toNat → unicode.ToUpper tbl (tbl.upper r) = tbl.upper r)
    (T : String) (hT : T ≠ "") :
    (toPublic tbl ((toPublic tbl T).value ++ "Builder")).value
      = (toPublic tbl T).value ++ "Builder" := by
  obtain ⟨c, cs, rfl⟩ := exists_cons_of_ne_empty T hT
  have e : (toPublic tbl (String.mk (c :: cs))).value ++ "Builder"
      = String.mk (unicode.ToUpper tbl c :: (cs ++ "Builder".data)) := by
    rw [toPublic_value_mk_cons]
    apply String.ext
    simp
  rw [e, toPublic_value_mk_cons, ToUpper_idem tbl hup]

theorem idTables_upper_fixed (r : Char) (h : 127 < r.toNat) :
    unicode.ToUpper idTables (idTables.upper r) = idTables.upper r := by
  have e : idTables.upper r = r := rfl
  rw [e]
  unfold unicode.ToUpper
  rw [if_neg (by omega)]
  rfl

/-! ## Member names of the builder -/

theorem memberName_data (tbl : CaseTables) (f : StructField) (hf : f.Name ≠ "") :
    (memberName tbl f).data
      = (f.Name.data.head?.map (unicode.ToUpper tbl)).toList ++ f.Name.data.tail := by
  obtain ⟨n, t⟩ := f
  obtain ⟨c, cs, rfl⟩ := exists_cons_of_ne_empty n hf
  simp [memberName, toPublic_value_mk_cons]

theorem head_tail_of_ne_empty (tbl : CaseTables) (f : StructField) (hf : f.Name ≠ "") :
    ∃ c cs, f.Name.data.head?.map (unicode.ToUpper tbl) = some (unicode.ToUpper tbl c)
      ∧ f.Name.data.tail = cs := by
  obtain ⟨n, t⟩ := f
  obtain ⟨c, cs, rfl⟩ := exists_cons_of_ne_empty n hf
  exact ⟨c, cs, by simp, by simp⟩

/-- Two fields get the same member name exactly when their names agree after
the first character and the first characters have the same upper-case form. -/
theorem memberName_eq_iff (tbl : CaseTables) (f g : StructField) (hf : f.Name ≠ "")
    (hg : g.Name ≠ "") :
    memberName tbl f = memberName tbl g
      ↔ (f.Name.data.head?.map (unicode.ToUpper tbl) = g.Name.data.head?.map (unicode.ToUpper tbl)
          ∧ f.Name.data.tail = g.Name.data.tail) := by
  rw [String.ext_iff, memberName_data tbl f hf, memberName_data tbl g hg]
  obtain ⟨c, cs, hc, hcs⟩ := head_tail_of_ne_empty tbl f hf
  obtain ⟨d, ds, hd, hds⟩ := head_tail_of_ne_empty tbl g hg
  rw [hc, hcs, hd, hds]
  simp

/-- The member name of `f` is the setter name of `g` exactly when the name of
`f` is, up to the case of its first character, `Set` followed by the member
name of `g`. -/
theorem memberName_eq_setterName_iff (tbl : CaseTables) (f g : StructField) (hf : f.Name ≠ "")
    (hg : g.Name ≠ "") :
    memberName tbl f = setterName tbl g
      ↔ (f.Name.data.head?.map (unicode.ToUpper tbl) = some 'S'
          ∧ f.Name.data.tail
            = 'e' :: 't' :: ((g.Name.data.head?.map (unicode.ToUpper tbl)).toList
                ++ g.Name.data.tail)) := by
  have e : (setterName tbl g).data = 'S' :: 'e' :: 't' :: (memberName tbl g).data := by
    simp [setterName, memberName]
  rw [String.ext_iff, e, memberName_data tbl f hf, memberName_data tbl g hg]
  obtain ⟨c, cs, hc, hcs⟩ := head_tail_of_ne_empty tbl f hf
  rw [hc, hcs]
  simp

/-- The member name of `f` is `Build` exactly when the name of `f` is `Build`
up to the case of its first character. -/
theorem memberName_eq_Build_iff (tbl : CaseTables) (f : StructField) (hf : f.Name ≠ "") :
    memberName tbl f = "Build"
      ↔ (f.Name.data.head?.map (unicode.ToUpper tbl) = some 'B'
          ∧ f.Name.data.tail = ['u', 'i', 'l', 'd']) := by
  have e : ("Build" : String).data = ['B', 'u', 'i', 'l', 'd'] := by decide
  rw [String.ext_iff, e, memberName_data tbl f hf]
  obtain ⟨c, cs, hc, hcs⟩ := head_tail_of_ne_empty tbl f hf
  rw [hc, hcs]
  simp

theorem setterName_ne_Build (tbl : CaseTables) (g : StructField) :
    setterName tbl g ≠ "Build" := by
  intro h
  have e := congrArg String.data h
  have e1 : (setterName tbl g).data = 'S' :: 'e' :: 't' :: (memberName tbl g).data := by
    simp [setterName, memberName]
  have e2 : ("Build" : String).data = ['B', 'u', 'i', 'l', 'd'] := by decide
  rw [e1, e2] at e
  simp at e

theorem setterName_injective (tbl : CaseTables) (f g : StructField)
    (h : setterName tbl f = setterName tbl g) : memberName tbl f = memberName tbl g :=
  append_left_cancel "Set" _ _ h

theorem memberNames_nodup_iff (tbl : CaseTables) (fields : List StructField)
    (hf : ∀ f ∈ fields, f.Name ≠ "") :
    (fields.map (memberName tbl)).Nodup
      ↔ fields.Pairwise (fun f g =>
          ¬ (f.Name.data.head?.map (unicode.ToUpper tbl)
                = g.Name.data.head?.map (unicode.ToUpper tbl)
              ∧ f.Name.data.tail = g.Name.data.tail)) := by
  rw [List.Nodup, List.pairwise_map]
  exact List.Pairwise.iff_of_mem (fun {f g} hfm hgm => by
    rw [Ne, memberName_eq_iff tbl f g (hf f hfm) (hf g hgm)])

theorem setterNames_nodup_iff (tbl : CaseTables) (fields : List StructField) :
    (fields.map (setterName tbl)).Nodup ↔ (fields.map (memberName tbl)).Nodup := by
  unfold List.Nodup
  rw [List.pairwise_map, List.pairwise_map]
  exact List.Pairwise.iff (fun f g =>
    ⟨fun h e => h (by
        have e1 : setterName tbl f = "Set" ++ memberName tbl f := rfl
        have e2 : setterName tbl g = "Set" ++ memberName tbl g := rfl
        rw [e1, e2, e]),
      fun h e => h (setterName_injective tbl f g e)⟩)

theorem members_disjoint_setters_iff (tbl : CaseTables) (fields : List StructField)
    (hf : ∀ f ∈ fields, f.Name ≠ "") :
    List.Disjoint (fields.map (memberName tbl)) (fields.map (setterName tbl))
      ↔ ∀ f ∈ fields, ∀ g ∈ fields,
          ¬ (f.Name.data.head?.map (unicode.ToUpper tbl) = some 'S'
              ∧ f.Name.data.tail
                = 'e' :: 't' :: ((g.Name.data.head?.map (unicode.ToUpper tbl)).toList
                    ++ g.Name.data.tail)) := by
  constructor
  · intro hdis f hfm g hgm hcond
    have e := (memberName_eq_setterName_iff tbl f g (hf f hfm) (hf g hgm)).mpr hcond
    exact hdis (List.mem_map.mpr ⟨f, hfm, rfl⟩) (List.mem_map.mpr ⟨g, hgm, e.symm⟩)
  · intro h x hxa hxb
    obtain ⟨f, hfm, rfl⟩ := List.mem_map.mp hxa
    obtain ⟨g, hgm, hg⟩ := List.mem_map.mp hxb
    exact h f hfm g hgm
      ((memberName_eq_setterName_iff tbl f g (hf f hfm) (hf g hgm)).mp hg.symm)

theorem Build_not_member_iff (tbl : CaseTables) (fields : List StructField)
    (hf : ∀ f ∈ fields, f.Name ≠ "") :
    "Build" ∉ fields.map (memberName tbl)
      ↔ ∀ f ∈ fields,
          ¬ (f.Name.data.head?.map (unicode.ToUpper tbl) = some 'B'
              ∧ f.Name.data.tail = ['u', 'i', 'l', 'd']) := by
  constructor
  · intro h f hfm hcond
    exact h (List.mem_map.mpr ⟨f, hfm, (memberName_eq_Build_iff tbl f (hf f hfm)).mpr hcond⟩)
  · intro h hmem
    obtain ⟨f, hfm, e⟩ := List.mem_map.mp hmem
    exact h f hfm ((memberName_eq_Build_iff tbl f (hf f hfm)).mp e)

theorem Build_not_setter (tbl : CaseTables) (fields : List StructField) :
    "Build" ∉ fields.map (setterName tbl) := by
  intro hmem
  obtain ⟨g, _, e⟩ := List.mem_map.mp hmem
  exact setterName_ne_Build tbl g e

/-- The members of the builder are pairwise distinct exactly when no two
member names coincide, no member name is a setter name, and no member name is
`Build`. -/
theorem builderMembers_nodup_iff (tbl : CaseTables) (T : String) (fields : List StructField)
    (hf : ∀ f ∈ fields, f.Name ≠ "") :
    (builderMembers tbl ⟨T, fields⟩).Nodup
      ↔ (fields.Pairwise (fun f g =>
            ¬ (f.Name.data.head?.map (unicode.ToUpper tbl)
                  = g.Name.data.head?.map (unicode.ToUpper tbl)
                ∧ f.Name.data.tail = g.Name.data.tail))
          ∧ (∀ f ∈ fields, ∀ g ∈ fields,
              ¬ (f.Name.data.head?.map (unicode.ToUpper tbl) = some 'S'
                  ∧ f.Name.data.tail
                    = 'e' :: 't' :: ((g.Name.data.head?.map (unicode.ToUpper tbl)).toList
                        ++ g.Name.data.tail)))
          ∧ (∀ f ∈ fields,
              ¬ (f.Name.data.head?.map (unicode.ToUpper tbl) = some 'B'
                  ∧ f.Name.data.tail = ['u', 'i', 'l', 'd']))) := by
  have hA := memberNames_nodup_iff tbl fields hf
  have hB := setterNames_nodup_iff tbl fields
  have hD := members_disjoint_setters_iff tbl fields hf
  have hX := Build_not_member_iff tbl fields hf
  have hY := Build_not_setter tbl fields
  unfold builderMembers
  rw [List.nodup_append, List.nodup_append, ← hA, ← hD, ← hX]
  constructor
  · rintro ⟨⟨h1, _, h3⟩, _, h5⟩
    exact ⟨h1, h3, fun hm => h5 (List.mem_append_left _ hm) (List.mem_singleton_self _)⟩
  · rintro ⟨h1, h2, h3⟩
    refine ⟨⟨h1, hB.mpr h1, h2⟩, List.nodup_singleton _, ?_⟩
    intro x hx hx1
    rw [List.mem_singleton] at hx1
    subst hx1
    rcases List.mem_append.mp hx with hm | hs
    · exact h3 hm
    · exact hY hs

/-! ## Claims -/

/-- C1: for every non-empty `name`, `toPublic name` returns (leaving the file
untouched) a string of the same length whose first character is the upper-case
form of the first character of `name` and whose other characters are those of
`name` at the same positions; and `toPublic "integer32" = "Integer32"`. -/
theorem toPublic_first_upper (tbl : CaseTables) (name file : String) (h : name ≠ "") :
    (∃ out, toPublic tbl name file = Res.ok out file
      ∧ out.length = name.length
      ∧ out.data.head? = name.data.head?.map (unicode.ToUpper tbl)
      ∧ ∀ i, 0 < i → out.data[i]? = name.data[i]?)
    ∧ toPublic tbl "integer32" file = Res.ok "Integer32" file := by
  refine ⟨?_, ?_⟩
  · obtain ⟨c, cs, rfl⟩ := exists_cons_of_ne_empty name h
    refine ⟨String.mk (unicode.ToUpper tbl c :: cs), toPublic_mk_cons tbl c cs file, ?_, ?_, ?_⟩
    · simp [String.length]
    · simp
    · intro i hi
      obtain ⟨j, rfl⟩ := Nat.exists_eq_succ_of_ne_zero (Nat.pos_iff_ne_zero.mp hi)
      simp
  · have e : ("integer32" : String) = String.mk ('i' :: "nteger32".data) := by decide
    have u : unicode.ToUpper tbl 'i' = 'I' := by
      unfold unicode.ToUpper
      rw [if_pos (by decide), if_pos (by decide)]
      decide
    rw [e, toPublic_mk_cons, u]

theorem toPublic_first_upper_witness :
    ("jason" : String) ≠ "" ∧
    ((∃ out, toPublic idTables "jason" "" = Res.ok out ""
      ∧ out.length = ("jason" : String).length
      ∧ out.data.head? = ("jason" : String).data.head?.map (unicode.ToUpper idTables)
      ∧ ∀ i, 0 < i → out.data[i]? = ("jason" : String).data[i]?)
    ∧ toPublic idTables "integer32" "" = Res.ok "Integer32" "") :=
  ⟨by decide, toPublic_first_upper idTables "jason" "" (by decide)⟩

/-- C2: `toPublic name` and `toPrivate name` each panic (index out of range)
if and only if `name` is the empty string, and each returns a result if and
only if `name` is non-empty. -/
theorem naming_fails_iff_empty (tbl : CaseTables) (name file : String) :
    ((∃ f, toPublic tbl name file = Res.panic f) ↔ name = "")
    ∧ ((∃ f, toPrivate tbl name file = Res.panic f) ↔ name = "")
    ∧ ((∃ out f, toPublic tbl name file = Res.ok out f) ↔ name ≠ "")
    ∧ ((∃ out f, toPrivate tbl name file = Res.ok out f) ↔ name ≠ "") := by
  by_cases h : name = ""
  · subst h
    simp [toPublic_empty, toPrivate_empty]
  · obtain ⟨c, cs, rfl⟩ := exists_cons_of_ne_empty name h
    simp [toPublic_mk_cons, toPrivate_mk_cons, h]

/-- C3: for a non-empty type name `T` and fields with non-empty names,
`writeBuilderStruct` returns `B = toPublic T ++ "Builder"` and appends exactly
`"type " ++ B ++ " struct{\n"`, then one line
`toPublic n ++ " " ++ t ++ "\n"` per field `(n, t)` in input order, then `"}"`;
for `T = "jason"` the declared type is `"JasonBuilder"`. -/
theorem writeBuilderStruct_text (tbl : CaseTables) (T : String) (fields : List StructField)
    (file : String) (hT : T ≠ "") (hf : ∀ f ∈ fields, f.Name ≠ "") :
    writeBuilderStruct tbl ⟨T, fields⟩ file
      = Res.ok ((toPublic tbl T).value ++ "Builder")
          (file ++ ("type " ++ ((toPublic tbl T).value ++ "Builder") ++ " struct\x7b\n"
            ++ String.join (fields.map (fun f =>
                (toPublic tbl f.Name).value ++ " " ++ f.TypeString ++ "\n"))
            ++ "\x7d"))
    ∧ (toPublic tbl "jason").value ++ "Builder" = "JasonBuilder" := by
  refine ⟨writeBuilderStruct_run tbl T fields file hT hf, ?_⟩
  have e : ("jason" : String) = String.mk ('j' :: "ason".data) := by decide
  have u : unicode.ToUpper tbl 'j' = 'J' := by
    unfold unicode.ToUpper
    rw [if_pos (by decide), if_pos (by decide)]
    decide
  rw [e, toPublic_value_mk_cons, u]
  decide

theorem writeBuilderStruct_text_witness :
    writeBuilderStruct idTables ⟨"jason", [⟨"integer32", "int32"⟩]⟩ ""
      = Res.ok ((toPublic idTables "jason").value ++ "Builder")
          ("" ++ ("type " ++ ((toPublic idTables "jason").value ++ "Builder") ++ " struct\x7b\n"
            ++ String.join ([(⟨"integer32", "int32"⟩ : StructField)].map (fun f =>
                (toPublic idTables f.Name).value ++ " " ++ f.TypeString ++ "\n"))
            ++ "\x7d"))
    ∧ (toPublic idTables "jason").value ++ "Builder" = "JasonBuilder" :=
  writeBuilderStruct_text idTables "jason" [⟨"integer32", "int32"⟩] "" (by decide) (by decide)

/-- C4: for every type name `T` and field list, `writeStruct` returns `T`
unchanged and appends exactly `"type " ++ T ++ " struct{\n"`, then one line
`n ++ " " ++ t ++ "\n"` per field `(n, t)` in input order with the name's
casing untouched, then `"}\n"`; it never panics, even on empty names. -/
theorem writeStruct_text (T : String) (fields : List StructField) (file : String) :
    writeStruct ⟨T, fields⟩ file
      = Res.ok T
          (file ++ ("type " ++ T ++ " struct\x7b\n"
            ++ String.join (fields.map (fun f => f.Name ++ " " ++ f.TypeString ++ "\n"))
            ++ "\x7d\n")) :=
  writeStruct_run T fields file

/-- C5: for a non-empty struct name `S` and a field `(n, t)` with non-empty
`n`, `writeSetter` appends exactly the method
`func ( r *S) Set<toPublic n>(n t) *S`, whose body assigns `n` to
`r.<toPublic n>` and returns `r`, where `r` is the lower-cased first character
of `S`. -/
theorem writeSetter_text (tbl : CaseTables) (S n t file : String) (hS : S ≠ "") (hn : n ≠ "") :
    ∃ r, S.data.head?.map (fun c => String.mk [unicode.ToLower tbl c]) = some r
      ∧ writeSetter tbl S ⟨n, t⟩ file
        = Res.ok () (file ++ ("\nfunc ( " ++ r ++ " *" ++ S ++ ") Set" ++ (toPublic tbl n).value
            ++ "(" ++ n ++ " " ++ t ++ ") *" ++ S ++ " \x7b\n" ++ r ++ "."
            ++ (toPublic tbl n).value ++ "=" ++ n ++ "\nreturn " ++ r ++ "\n\x7d\n")) :=
  ⟨(receiver tbl S).value, receiver_value_head tbl S hS, writeSetter_run tbl S n t file hS hn⟩

theorem writeSetter_text_witness :
    ∃ r, ("JasonBuilder" : String).data.head?.map
          (fun c => String.mk [unicode.ToLower idTables c]) = some r
      ∧ writeSetter idTables "JasonBuilder" ⟨"integer32", "int32"⟩ ""
        = Res.ok () ("" ++ ("\nfunc ( " ++ r ++ " *" ++ "JasonBuilder" ++ ") Set"
            ++ (toPublic idTables "integer32").value
            ++ "(" ++ "integer32" ++ " " ++ "int32" ++ ") *" ++ "JasonBuilder" ++ " \x7b\n" ++ r
            ++ "." ++ (toPublic idTables "integer32").value ++ "=" ++ "integer32" ++ "\nreturn "
            ++ r ++ "\n\x7d\n")) :=
  writeSetter_text idTables "JasonBuilder" "integer32" "int32" "" (by decide) (by decide)

/-- C6: for a non-empty struct name `S` and a field `(n, t)` with non-empty
`n`, `writeGetter` appends exactly the method `func ( r *S) <toPublic n>()t`
(no `Get` in front of the name, no parameter) whose body returns `r.n`, `n`
with its original casing, where `r` is the lower-cased first character of
`S`. -/
theorem writeGetter_text (tbl : CaseTables) (S n t file : String) (hS : S ≠ "") (hn : n ≠ "") :
    ∃ r, S.data.head?.map (fun c => String.mk [unicode.ToLower tbl c]) = some r
      ∧ writeGetter tbl S ⟨n, t⟩ file
        = Res.ok () (file ++ ("\nfunc ( " ++ r ++ " *" ++ S ++ ") " ++ (toPublic tbl n).value
            ++ "()" ++ t ++ " \x7b\nreturn " ++ r ++ "." ++ n ++ "\n\x7d\n")) :=
  ⟨(receiver tbl S).value, receiver_value_head tbl S hS, writeGetter_run tbl S n t file hS hn⟩

theorem writeGetter_text_witness :
    ∃ r, ("Jason" : String).data.head?.map
          (fun c => String.mk [unicode.ToLower idTables c]) = some r
      ∧ writeGetter idTables "Jason" ⟨"integer32", "int32"⟩ ""
        = Res.ok () ("" ++ ("\nfunc ( " ++ r ++ " *" ++ "Jason" ++ ") "
            ++ (toPublic idTables "integer32").value
            ++ "()" ++ "int32" ++ " \x7b\nreturn " ++ r ++ "." ++ "integer32" ++ "\n\x7d\n")) :=
  writeGetter_text idTables "Jason" "integer32" "int32" "" (by decide) (by decide)

/-- C7: for a non-empty builder struct name `S`, a type name `T` and fields
with non-empty names, `writeBuildMethod` appends exactly the header
`func ( r *S) Build () *T {` and `return &T{`, then one initializer line
`n: r.<toPublic n>,` per field in input order, then the closing braces: the
upper-casing of `n ++ ",\n"` in the source only changes the first character of
`n`. -/
theorem writeBuildMethod_text (tbl : CaseTables) (S T : String) (fields : List StructField)
    (file : String) (hS : S ≠ "") (hf : ∀ f ∈ fields, f.Name ≠ "") :
    ∃ r, S.data.head?.map (fun c => String.mk [unicode.ToLower tbl c]) = some r
      ∧ writeBuildMethod tbl S ⟨T, fields⟩ file
        = Res.ok () (file ++ ("\nfunc ( " ++ r ++ " *" ++ S ++ ") Build () *" ++ T
            ++ " \x7b\nreturn &" ++ T ++ "\x7b\n"
            ++ String.join (fields.map (fun f =>
                f.Name ++ ": " ++ r ++ "." ++ (toPublic tbl f.Name).value ++ ",\n"))
            ++ "\x7d\n\x7d\n")) :=
  ⟨(receiver tbl S).value, receiver_value_head tbl S hS,
    writeBuildMethod_run tbl S T fields file hS hf⟩

theorem writeBuildMethod_text_witness :
    ∃ r, ("JasonBuilder" : String).data.head?.map
          (fun c => String.mk [unicode.ToLower idTables c]) = some r
      ∧ writeBuildMethod idTables "JasonBuilder" ⟨"Jason", [⟨"integer32", "int32"⟩]⟩ ""
        = Res.ok () ("" ++ ("\nfunc ( " ++ r ++ " *" ++ "JasonBuilder" ++ ") Build () *" ++ "Jason"
            ++ " \x7b\nreturn &" ++ "Jason" ++ "\x7b\n"
            ++ String.join ([(⟨"integer32", "int32"⟩ : StructField)].map (fun f =>
                f.Name ++ ": " ++ r ++ "." ++ (toPublic idTables f.Name).value ++ ",\n"))
            ++ "\x7d\n\x7d\n")) :=
  writeBuildMethod_text idTables "JasonBuilder" "Jason" [⟨"integer32", "int32"⟩] ""
    (by decide) (by decide)

/-- C8 (evaluation at the failing input): for the type name `"jason"` the
builder artifact declares the type `JasonBuilder`, while the `AsBuilder`
method written for `"jason"` returns and instantiates `jasonBuilder`; the two
names differ. -/
theorem asBuilder_names_other_type :
    writeBuilderStruct idTables ⟨"jason", []⟩ ""
      = Res.ok "JasonBuilder" "type JasonBuilder struct\x7b\n\x7d"
    ∧ writeAsBuilderMethod idTables "jason" ⟨"jason", []⟩ ""
      = Res.ok ()
          "\nfunc ( j *jason) AsBuilder() *jasonBuilder \x7b\nreturn &jasonBuilder\x7b\n\x7d\n\x7d\n"
    ∧ ("jason" : String) ++ "Builder" ≠ "JasonBuilder" := by
  decide

/-- C9 (counterexample): the fields `foo` and `Foo` have non-empty, distinct
names, yet both copy to and from the builder field `Foo`: `AsBuilder` writes
`Foo: t.foo,` and `Foo: t.Foo,`, `Build` writes `foo: t.Foo,` and
`Foo: t.Foo,`, and the field `foo` of `v.AsBuilder().Build()` holds the value
of `v.Foo`, not of `v.foo`. -/
theorem roundTrip_case_collision :
    (∀ f ∈ [(⟨"foo", "int"⟩ : StructField), ⟨"Foo", "int"⟩], f.Name ≠ "")
    ∧ ([(⟨"foo", "int"⟩ : StructField), ⟨"Foo", "int"⟩].map StructField.Name).Nodup
    ∧ writeAsBuilderMethod idTables "T" ⟨"T", [⟨"foo", "int"⟩, ⟨"Foo", "int"⟩]⟩ ""
      = Res.ok ()
          "\nfunc ( t *T) AsBuilder() *TBuilder \x7b\nreturn &TBuilder\x7b\nFoo: t.foo,\nFoo: t.Foo,\n\x7d\n\x7d\n"
    ∧ writeBuildMethod idTables "TBuilder" ⟨"T", [⟨"foo", "int"⟩, ⟨"Foo", "int"⟩]⟩ ""
      = Res.ok ()
          "\nfunc ( t *TBuilder) Build () *T \x7b\nreturn &T\x7b\nfoo: t.Foo,\nFoo: t.Foo,\n\x7d\n\x7d\n"
    ∧ roundTrip idTables ⟨"T", [⟨"foo", "int"⟩, ⟨"Foo", "int"⟩]⟩ 0
        (fun k => if k = "foo" then 1 else 2) "foo" = 2
    ∧ roundTrip idTables ⟨"T", [⟨"foo", "int"⟩, ⟨"Foo", "int"⟩]⟩ 0
        (fun k => if k = "foo" then 1 else 2) "foo"
      ≠ (fun k : String => if k = "foo" then 1 else 2) "foo" := by
  decide

/-- C9 (amended): for fields with non-empty names whose public forms
`toPublic n` are pairwise distinct, the lines `AsBuilder` writes are the
entries `toPublic n := n`, the lines `Build` writes are the entries
`n := toPublic n`, and the two lists compose to the identity: every field `n`
of `v.AsBuilder().Build()` holds the value of field `n` of `v`. -/
theorem roundTrip_of_distinct_public {V : Type} (tbl : CaseTables) (S T : String)
    (fields : List StructField) (zero : V) (v : String → V)
    (hS : S ≠ "") (hT : T ≠ "") (hf : ∀ f ∈ fields, f.Name ≠ "")
    (hd : (fields.map (fun f => (toPublic tbl f.Name).value)).Nodup) :
    writeAsBuilderMethod tbl T ⟨T, fields⟩ ""
      = Res.ok () ("\nfunc ( " ++ (receiver tbl T).value ++ " *" ++ T
          ++ ") AsBuilder() *" ++ (T ++ "Builder") ++ " \x7b\nreturn &" ++ (T ++ "Builder")
          ++ "\x7b\n"
          ++ String.join ((asBuilderCopies tbl ⟨T, fields⟩).map (copyLine (receiver tbl T).value))
          ++ "\x7d\n\x7d\n")
    ∧ writeBuildMethod tbl S ⟨T, fields⟩ ""
      = Res.ok () ("\nfunc ( " ++ (receiver tbl S).value ++ " *" ++ S ++ ") Build () *"
          ++ T ++ " \x7b\nreturn &" ++ T ++ "\x7b\n"
          ++ String.join ((buildCopies tbl ⟨T, fields⟩).map (copyLine (receiver tbl S).value))
          ++ "\x7d\n\x7d\n")
    ∧ ∀ f ∈ fields, roundTrip tbl ⟨T, fields⟩ zero v f.Name = v f.Name := by
  refine ⟨?_, ?_, fun f hmem => roundTrip_field tbl T fields zero v hd f hmem⟩
  · rw [writeAsBuilderMethod_run tbl T T fields "" hT hf]
    simp [asBuilderCopies, copyLine, Function.comp_def]
  · rw [writeBuildMethod_run tbl S T fields "" hS hf]
    simp [buildCopies, copyLine, Function.comp_def]

theorem roundTrip_of_distinct_public_witness :
    ("JasonBuilder" : String) ≠ "" ∧ ("Jason" : String) ≠ ""
    ∧ (∀ f ∈ [(⟨"count", "int"⟩ : StructField), ⟨"label", "string"⟩], f.Name ≠ "")
    ∧ ([(⟨"count", "int"⟩ : StructField), ⟨"label", "string"⟩].map
        (fun f => (toPublic idTables f.Name).value)).Nodup
    ∧ roundTrip idTables ⟨"Jason", [⟨"count", "int"⟩, ⟨"label", "string"⟩]⟩ 0
        (fun k => if k = "count" then 7 else 9) "count" = 7 :=
  ⟨by decide, by decide, by decide, by decide,
    (roundTrip_of_distinct_public idTables "JasonBuilder" "Jason"
      [⟨"count", "int"⟩, ⟨"label", "string"⟩] 0 (fun k => if k = "count" then 7 else 9)
      (by decide) (by decide) (by decide) (by decide)).2.2 ⟨"count", "int"⟩ (by decide)⟩

/-- C10: for a non-empty type name `T` and fields with non-empty names,
`genBuilder` returns and the text it has written is the package declaration,
then the builder type declaration, then the constructor of the builder type
`B`, then the setters of the fields in input order (one per field), then the
`Build` method, each being the text the corresponding writer produces on its
own. -/
theorem genBuilder_text (tbl : CaseTables) (sep T : String) (fields : List StructField)
    (hT : T ≠ "") (hf : ∀ f ∈ fields, f.Name ≠ "") :
    ∃ (pkgDecl structDecl B ctor build : String) (setter : StructField → String),
      writePackage sep path "" = Res.ok () pkgDecl
      ∧ writeBuilderStruct tbl ⟨T, fields⟩ "" = Res.ok B structDecl
      ∧ writeConstructor tbl B "" = Res.ok () ctor
      ∧ (∀ f ∈ fields, writeSetter tbl B f "" = Res.ok () (setter f))
      ∧ writeBuildMethod tbl B ⟨T, fields⟩ "" = Res.ok () build
      ∧ genBuilder tbl sep ⟨T, fields⟩
        = Res.ok () (pkgDecl ++ structDecl ++ ctor ++ String.join (fields.map setter) ++ build)
      ∧ (fields.map setter).length = fields.length := by
  obtain ⟨pkg, _, hpkg⟩ := writePackage_path_run sep
  have hB : (toPublic tbl T).value ++ "Builder" ≠ "" := append_ne_empty _ _ (by decide)
  have hset : ∀ f ∈ fields, ∀ file,
      writeSetter tbl ((toPublic tbl T).value ++ "Builder") f file
        = Res.ok () (file ++ ("" ++ ("\nfunc ( "
          ++ (receiver tbl ((toPublic tbl T).value ++ "Builder")).value ++ " *"
          ++ ((toPublic tbl T).value ++ "Builder") ++ ") Set"
          ++ (toPublic tbl f.Name).value ++ "(" ++ f.Name ++ " " ++ f.TypeString ++ ") *"
          ++ ((toPublic tbl T).value ++ "Builder") ++ " \x7b\n"
          ++ (receiver tbl ((toPublic tbl T).value ++ "Builder")).value ++ "."
          ++ (toPublic tbl f.Name).value ++ "=" ++ f.Name
          ++ "\nreturn " ++ (receiver tbl ((toPublic tbl T).value ++ "Builder")).value
          ++ "\n\x7d\n"))) := by
    intro f hmem file
    rw [String.empty_append]
    exact writeSetter_run tbl _ f.Name f.TypeString file hB (hf f hmem)
  refine ⟨_, _, _, _, _, _, hpkg "", writeBuilderStruct_run tbl T fields "" hT hf,
    writeConstructor_run tbl _ "" hB, fun f hmem => hset f hmem "",
    writeBuildMethod_run tbl _ T fields "" hB hf, ?_, by simp⟩
  have loop := fun file => forFields_append fields
    (fun field => writeSetter tbl ((toPublic tbl T).value ++ "Builder") field) _
    (fun f hmem file1 => hset f hmem file1) file
  simp only [genBuilder, Gen.run_bind, Gen.bind, toPrivate_ok tbl T _ hT, createFile, hpkg,
    writeBuilderStruct_run tbl T fields _ hT hf, writeConstructor_run tbl _ _ hB, loop,
    writeBuildMethod_run tbl _ T fields _ hB hf]
  simp only [String.empty_append, String.append_assoc]

theorem genBuilder_text_witness :
    ("jason" : String) ≠ ""
    ∧ (∀ f ∈ Jason.Fields, f.Name ≠ "")
    ∧ ∃ (pkgDecl structDecl B ctor build : String) (setter : StructField → String),
      writePackage "/" path "" = Res.ok () pkgDecl
      ∧ writeBuilderStruct idTables ⟨"jason", Jason.Fields⟩ "" = Res.ok B structDecl
      ∧ writeConstructor idTables B "" = Res.ok () ctor
      ∧ (∀ f ∈ Jason.Fields, writeSetter idTables B f "" = Res.ok () (setter f))
      ∧ writeBuildMethod idTables B ⟨"jason", Jason.Fields⟩ "" = Res.ok () build
      ∧ genBuilder idTables "/" ⟨"jason", Jason.Fields⟩
        = Res.ok () (pkgDecl ++ structDecl ++ ctor ++ String.join (Jason.Fields.map setter)
            ++ build)
      ∧ (Jason.Fields.map setter).length = Jason.Fields.length :=
  ⟨by decide, by decide, genBuilder_text idTables "/" "jason" Jason.Fields (by decide) (by decide)⟩

/-- C16: for a non-empty struct type name `S`, `writeConstructor` appends
exactly `func New<toPublic S>() *S`, whose body is the single statement
`return new(S)`; the writer takes the struct type name only, so the text does
not depend on any field list. -/
theorem writeConstructor_text (tbl : CaseTables) (S file : String) (hS : S ≠ "") :
    writeConstructor tbl S file
      = Res.ok () (file ++ ("\nfunc New" ++ (toPublic tbl S).value ++ "() *" ++ S
          ++ " \x7b\nreturn new(" ++ S ++ ") \n\x7d\n")) :=
  writeConstructor_run tbl S file hS

theorem writeConstructor_text_witness :
    ("Jason" : String) ≠ ""
    ∧ writeConstructor idTables "Jason" ""
      = Res.ok () ("" ++ ("\nfunc New" ++ (toPublic idTables "Jason").value ++ "() *" ++ "Jason"
          ++ " \x7b\nreturn new(" ++ "Jason" ++ ") \n\x7d\n")) :=
  ⟨by decide, writeConstructor_text idTables "Jason" "" (by decide)⟩

/-- C17: for every non-empty `name`, `toPrivate name` returns (leaving the
file untouched) a string of the same length whose first character is the
lower-case form of the first character of `name` and whose other characters
are those of `name` at the same positions. -/
theorem toPrivate_first_lower (tbl : CaseTables) (name file : String) (h : name ≠ "") :
    ∃ out, toPrivate tbl name file = Res.ok out file
      ∧ out.length = name.length
      ∧ out.data.head? = name.data.head?.map (unicode.ToLower tbl)
      ∧ ∀ i, 0 < i → out.data[i]? = name.data[i]? := by
  obtain ⟨c, cs, rfl⟩ := exists_cons_of_ne_empty name h
  refine ⟨String.mk (unicode.ToLower tbl c :: cs), toPrivate_mk_cons tbl c cs file, ?_, ?_, ?_⟩
  · simp [String.length]
  · simp
  · intro i hi
    obtain ⟨j, rfl⟩ := Nat.exists_eq_succ_of_ne_zero (Nat.pos_iff_ne_zero.mp hi)
    simp

theorem toPrivate_first_lower_witness :
    ("Jason" : String) ≠ ""
    ∧ ∃ out, toPrivate idTables "Jason" "" = Res.ok out ""
      ∧ out.length = ("Jason" : String).length
      ∧ out.data.head? = ("Jason" : String).data.head?.map (unicode.ToLower idTables)
      ∧ ∀ i, 0 < i → out.data[i]? = ("Jason" : String).data[i]? :=
  ⟨by decide, toPrivate_first_lower idTables "Jason" "" (by decide)⟩

set_option maxRecDepth 100000 in
/-- C11 (evaluation at the failing input): for the sample type `Jason`, the
statements of `genImmutable` write the package line, the type declaration,
the constructor and the seven getters, and nothing after them: the text holds
four of the five declaration kinds and no `AsBuilder` method.  Given the
struct name `Jason`, `writeAsBuilderMethod` writes that method; the call in
`genImmutable` gives it no struct name. -/
theorem genImmutable_without_asBuilder :
    genImmutable idTables "/" Jason
      = Res.ok ()
          "package builders\ntype Jason struct\x7b\nt time.Time\nboolean bool\nfloater float64\nreader io.Reader\ninteger int\ninteger32 int32\ninteger64 int64\n\x7d\n\nfunc NewJason() *Jason \x7b\nreturn new(Jason) \n\x7d\n\nfunc ( j *Jason) T()time.Time \x7b\nreturn j.t\n\x7d\n\nfunc ( j *Jason) Boolean()bool \x7b\nreturn j.boolean\n\x7d\n\nfunc ( j *Jason) Floater()float64 \x7b\nreturn j.floater\n\x7d\n\nfunc ( j *Jason) Reader()io.Reader \x7b\nreturn j.reader\n\x7d\n\nfunc ( j *Jason) Integer()int \x7b\nreturn j.integer\n\x7d\n\nfunc ( j *Jason) Integer32()int32 \x7b\nreturn j.integer32\n\x7d\n\nfunc ( j *Jason) Integer64()int64 \x7b\nreturn j.integer64\n\x7d\n"
    ∧ writeAsBuilderMethod idTables "Jason" Jason ""
      = Res.ok ()
          "\nfunc ( j *Jason) AsBuilder() *JasonBuilder \x7b\nreturn &JasonBuilder\x7b\nT: j.t,\nBoolean: j.boolean,\nFloater: j.floater,\nReader: j.reader,\nInteger: j.integer,\nInteger32: j.integer32,\nInteger64: j.integer64,\n\x7d\n\x7d\n" := by
  decide

set_option maxRecDepth 100000 in
/-- C12 (evaluation at the failing input): for the sample type `Jason` and
the separator `/`, `genBuilder` returns and the statements of `genImmutable`
return, so no naming call and no receiver lookup before the `AsBuilder` call
panics.  The receiver lookup of `writeAsBuilderMethod` reads the first
character of its struct name, and panics when that name is empty; the call in
`genImmutable` gives it no struct name. -/
theorem asBuilder_lookup_reads_struct_name :
    (∃ text, genBuilder idTables "/" Jason = Res.ok () text)
    ∧ (∃ text, genImmutable idTables "/" Jason = Res.ok () text)
    ∧ (∃ text, writeAsBuilderMethod idTables "Jason" Jason "" = Res.ok () text)
    ∧ writeAsBuilderMethod idTables "" Jason "" = Res.panic "" :=
  ⟨⟨_, genBuilder_run idTables "/" "Jason" "builders" Jason.Fields (by decide) (by decide)
      (by decide) _ rfl⟩,
    ⟨_, genImmutable_run idTables "/" "Jason" "builders" Jason.Fields (by decide) (by decide)
      (by decide)⟩,
    ⟨_, writeAsBuilderMethod_run idTables "Jason" "Jason" Jason.Fields "" (by decide)
      (by decide)⟩,
    by decide⟩

set_option maxRecDepth 100000 in
/-- C13 (evaluation at the failing input): for the type name `Jason` and no
field, `genBuilder` writes the package line, `type JasonBuilder struct{`
closed at once, the constructor and a `Build` method whose body is
`return &Jason{` closed at once; the statements of `genImmutable` write the
package line, `type Jason struct{` closed at once and the constructor, and no
`AsBuilder` method.  Given the struct name `Jason`, `writeAsBuilderMethod`
writes a body `return &JasonBuilder{` closed at once; the call in
`genImmutable` gives it no struct name. -/
theorem empty_fields_without_asBuilder :
    genBuilder idTables "/" ⟨"Jason", []⟩
      = Res.ok ()
          "package builders\ntype JasonBuilder struct\x7b\n\x7d\nfunc NewJasonBuilder() *JasonBuilder \x7b\nreturn new(JasonBuilder) \n\x7d\n\nfunc ( j *JasonBuilder) Build () *Jason \x7b\nreturn &Jason\x7b\n\x7d\n\x7d\n"
    ∧ genImmutable idTables "/" ⟨"Jason", []⟩
      = Res.ok ()
          "package builders\ntype Jason struct\x7b\n\x7d\n\nfunc NewJason() *Jason \x7b\nreturn new(Jason) \n\x7d\n"
    ∧ writeAsBuilderMethod idTables "Jason" ⟨"Jason", []⟩ ""
      = Res.ok ()
          "\nfunc ( j *Jason) AsBuilder() *JasonBuilder \x7b\nreturn &JasonBuilder\x7b\n\x7d\n\x7d\n" := by
  decide

/-- C14 (counterexample): with the type name `Jason` and one field whose name
is empty, both pipelines panic, but not on an empty file: `genBuilder` has
written the package line and the head of the type declaration, `genImmutable`
the package line, the whole type declaration and the constructor. -/
theorem empty_field_fails_after_text :
    (∃ f ∈ [(⟨"", "int"⟩ : StructField)], f.Name = "")
    ∧ genBuilder idTables "/" ⟨"Jason", [⟨"", "int"⟩]⟩
      = Res.panic "package builders\ntype JasonBuilder struct\x7b\n"
    ∧ genImmutable idTables "/" ⟨"Jason", [⟨"", "int"⟩]⟩
      = Res.panic
          "package builders\ntype Jason struct\x7b\n int\n\x7d\n\nfunc NewJason() *Jason \x7b\nreturn new(Jason) \n\x7d\n"
    ∧ genBuilder idTables "/" ⟨"Jason", [⟨"", "int"⟩]⟩ ≠ Res.panic ""
    ∧ genImmutable idTables "/" ⟨"Jason", [⟨"", "int"⟩]⟩ ≠ Res.panic "" := by
  decide

/-- C14 (amended): when the type name or some field name is empty,
`genBuilder` and `genImmutable` both panic.  With an empty type name the
panic comes before any text is written; with a non-empty type name it comes
after the package line has been written. -/
theorem invalid_identifier_fails (tbl : CaseTables) (sep T : String)
    (fields : List StructField) (h : T = "" ∨ ∃ f ∈ fields, f.Name = "") :
    ∃ fileB fileI,
      genBuilder tbl sep ⟨T, fields⟩ = Res.panic fileB
      ∧ genImmutable tbl sep ⟨T, fields⟩ = Res.panic fileI
      ∧ (T = "" → fileB = "" ∧ fileI = "")
      ∧ (T ≠ "" → ∃ pkg restB restI, (strings.Split path sep).getLast? = some pkg
          ∧ fileB = "package " ++ pkg ++ "\n" ++ restB
          ∧ fileI = "package " ++ pkg ++ "\n" ++ restI) := by
  by_cases hT : T = ""
  · subst hT
    refine ⟨"", "", ?_, ?_, fun _ => ⟨rfl, rfl⟩, fun hne => absurd rfl hne⟩
    · simp [genBuilder, Gen.run_bind, Gen.bind, toPrivate_empty]
    · simp [genImmutable, Gen.run_bind, Gen.bind, toPrivate_empty]
  · have hbad : ∃ f ∈ fields, f.Name = "" := h.resolve_left hT
    obtain ⟨pkg, hpkg, _⟩ := writePackage_path_run sep
    obtain ⟨restB, hB⟩ := genBuilder_panic_of_empty_field tbl sep T pkg fields hpkg hT hbad
    obtain ⟨restI, hI⟩ := genImmutable_panic_of_empty_field tbl sep T pkg fields hpkg hT hbad
    exact ⟨_, _, hB, hI, fun e => absurd e hT, fun _ => ⟨pkg, restB, restI, hpkg, rfl, rfl⟩⟩

theorem invalid_identifier_fails_witness :
    (("" : String) = "" ∨ ∃ f ∈ Jason.Fields, f.Name = "")
    ∧ ∃ fileB fileI,
      genBuilder idTables "/" ⟨"", Jason.Fields⟩ = Res.panic fileB
      ∧ genImmutable idTables "/" ⟨"", Jason.Fields⟩ = Res.panic fileI
      ∧ (("" : String) = "" → fileB = "" ∧ fileI = "")
      ∧ (("" : String) ≠ "" → ∃ pkg restB restI, (strings.Split path "/").getLast? = some pkg
          ∧ fileB = "package " ++ pkg ++ "\n" ++ restB
          ∧ fileI = "package " ++ pkg ++ "\n" ++ restI) :=
  ⟨Or.inl rfl, invalid_identifier_fails idTables "/" "" Jason.Fields (Or.inl rfl)⟩

/-- C15 (counterexample): for the builder `JasonBuilder` and a field named
`j`, the receiver identifier is `j` and the parameter identifier is `j` too:
the setter is `func ( j *JasonBuilder) SetJ(j int) *JasonBuilder`, with body
`j.J=j` and `return j`. -/
theorem setter_parameter_is_receiver :
    ("JasonBuilder" : String) ≠ "" ∧ ("j" : String) ≠ ""
    ∧ ("JasonBuilder" : String).data.head?.map
        (fun c => String.mk [unicode.ToLower idTables c]) = some "j"
    ∧ writeSetter idTables "JasonBuilder" ⟨"j", "int"⟩ ""
      = Res.ok ()
          "\nfunc ( j *JasonBuilder) SetJ(j int) *JasonBuilder \x7b\nj.J=j\nreturn j\n\x7d\n"
    ∧ ¬ (("j" : String) ≠ (receiver idTables "JasonBuilder").value) := by
  decide

/-- C15 (amended): for a non-empty builder struct name `S` and a field
`(n, t)` with non-empty `n`, the last statement of the setter is `return r`,
`r` being the receiver identifier, the one-character string made of the
lower-cased first character of `S`; the parameter identifier `n` is different
from `r` exactly when `n` is not that one-character string. -/
theorem writeSetter_returns_receiver (tbl : CaseTables) (S n t file : String)
    (hS : S ≠ "") (hn : n ≠ "") :
    ∃ r, S.data.head?.map (fun c => String.mk [unicode.ToLower tbl c]) = some r
      ∧ receiver tbl S file = Res.ok r file
      ∧ writeSetter tbl S ⟨n, t⟩ file
        = Res.ok () (file ++ (("\nfunc ( " ++ r ++ " *" ++ S ++ ") Set" ++ (toPublic tbl n).value
            ++ "(" ++ n ++ " " ++ t ++ ") *" ++ S ++ " \x7b\n" ++ r ++ "."
            ++ (toPublic tbl n).value ++ "=" ++ n) ++ ("\nreturn " ++ r) ++ "\n\x7d\n"))
      ∧ r.length = 1
      ∧ (n ≠ r ↔ n.data ≠ (S.data.take 1).map (unicode.ToLower tbl)) := by
  refine ⟨(receiver tbl S).value, receiver_value_head tbl S hS, receiver_ok tbl S file hS, ?_,
    receiver_value_length tbl S hS, ?_⟩
  · rw [writeSetter_run tbl S n t file hS hn]
    simp only [String.append_assoc]
  · obtain ⟨c, cs, rfl⟩ := exists_cons_of_ne_empty S hS
    have e : (receiver tbl (String.mk (c :: cs))).value = String.mk [unicode.ToLower tbl c] := by
      simp [Gen.value, receiver_mk_cons]
    rw [e]
    constructor
    · intro hne hd
      exact hne (String.ext (by simpa using hd))
    · intro hne heq
      exact hne (by rw [heq]; simp)

theorem writeSetter_returns_receiver_witness :
    ("JasonBuilder" : String) ≠ "" ∧ ("t" : String) ≠ ""
    ∧ ∃ r, ("JasonBuilder" : String).data.head?.map
          (fun c => String.mk [unicode.ToLower idTables c]) = some r
      ∧ receiver idTables "JasonBuilder" "" = Res.ok r ""
      ∧ writeSetter idTables "JasonBuilder" ⟨"t", "time.Time"⟩ ""
        = Res.ok () ("" ++ (("\nfunc ( " ++ r ++ " *" ++ "JasonBuilder" ++ ") Set"
            ++ (toPublic idTables "t").value
            ++ "(" ++ "t" ++ " " ++ "time.Time" ++ ") *" ++ "JasonBuilder" ++ " \x7b\n" ++ r
            ++ "." ++ (toPublic idTables "t").value ++ "=" ++ "t")
            ++ ("\nreturn " ++ r) ++ "\n\x7d\n"))
      ∧ r.length = 1
      ∧ (("t" : String) ≠ r
          ↔ ("t" : String).data
              ≠ (("JasonBuilder" : String).data.take 1).map (unicode.ToLower idTables)) :=
  ⟨by decide, by decide,
    writeSetter_returns_receiver idTables "JasonBuilder" "t" "time.Time" ""
      (by decide) (by decide)⟩

/-- C18 (counterexample): the fields `foo` and `Foo` have non-empty, distinct
names, but `writeBuilderStruct` declares the member `Foo` twice: the public
member names are not pairwise distinct.  The fields `foo` and `setFoo` have
distinct public names, but the builder gets the field `SetFoo` and the setter
`SetFoo` of `foo`; a field `build` gives the field `Build` next to the method
`Build`. -/
theorem public_members_collide :
    (∀ f ∈ [(⟨"foo", "int"⟩ : StructField), ⟨"Foo", "int"⟩], f.Name ≠ "")
    ∧ ([(⟨"foo", "int"⟩ : StructField), ⟨"Foo", "int"⟩].map StructField.Name).Nodup
    ∧ writeBuilderStruct idTables ⟨"T", [⟨"foo", "int"⟩, ⟨"Foo", "int"⟩]⟩ ""
      = Res.ok "TBuilder" "type TBuilder struct\x7b\nFoo int\nFoo int\n\x7d"
    ∧ ¬ ([(⟨"foo", "int"⟩ : StructField), ⟨"Foo", "int"⟩].map
          (fun f => (toPublic idTables f.Name).value)).Nodup
    ∧ ([(⟨"foo", "int"⟩ : StructField), ⟨"setFoo", "int"⟩].map StructField.Name).Nodup
    ∧ writeBuilderStruct idTables ⟨"T", [⟨"foo", "int"⟩, ⟨"setFoo", "int"⟩]⟩ ""
      = Res.ok "TBuilder" "type TBuilder struct\x7b\nFoo int\nSetFoo int\n\x7d"
    ∧ writeSetter idTables "TBuilder" ⟨"foo", "int"⟩ ""
      = Res.ok () "\nfunc ( t *TBuilder) SetFoo(foo int) *TBuilder \x7b\nt.Foo=foo\nreturn t\n\x7d\n"
    ∧ ¬ (builderMembers idTables ⟨"T", [⟨"foo", "int"⟩, ⟨"setFoo", "int"⟩]⟩).Nodup
    ∧ writeBuilderStruct idTables ⟨"T", [⟨"build", "int"⟩]⟩ ""
      = Res.ok "TBuilder" "type TBuilder struct\x7b\nBuild int\n\x7d"
    ∧ ¬ (builderMembers idTables ⟨"T", [⟨"build", "int"⟩]⟩).Nodup := by
  decide

/-- C18 (amended): for a non-empty type name and non-empty field names, the
names written into the builder are the member names `toPublic n` (also the
getter names), the setter names `Set<toPublic n>` and `Build`.  The member
names are pairwise distinct, and so are the setter names, exactly when no two
fields have the same name up to the case of the first character.  All members
of the builder are pairwise distinct exactly when, in addition, no field name
is, up to the case of its first character, `Set` followed by a member name,
or `Build`. -/
theorem builder_members_distinct (tbl : CaseTables) (T : String) (fields : List StructField)
    (hT : T ≠ "") (hf : ∀ f ∈ fields, f.Name ≠ "") :
    writeBuilderStruct tbl ⟨T, fields⟩ ""
      = Res.ok ((toPublic tbl T).value ++ "Builder")
          ("type " ++ ((toPublic tbl T).value ++ "Builder") ++ " struct\x7b\n"
            ++ String.join (fields.map (fun f =>
                memberName tbl f ++ " " ++ f.TypeString ++ "\n"))
            ++ "\x7d")
    ∧ (∀ f ∈ fields, ∃ r rest, writeSetter tbl ((toPublic tbl T).value ++ "Builder") f ""
        = Res.ok () ("\nfunc ( " ++ r ++ " *" ++ ((toPublic tbl T).value ++ "Builder") ++ ") "
            ++ setterName tbl f ++ "(" ++ rest))
    ∧ (∃ r rest, writeBuildMethod tbl ((toPublic tbl T).value ++ "Builder") ⟨T, fields⟩ ""
        = Res.ok () ("\nfunc ( " ++ r ++ " *" ++ ((toPublic tbl T).value ++ "Builder") ++ ") "
            ++ "Build" ++ " (" ++ rest))
    ∧ (∀ f ∈ fields, ∃ r rest, writeGetter tbl T f ""
        = Res.ok () ("\nfunc ( " ++ r ++ " *" ++ T ++ ") " ++ memberName tbl f ++ "(" ++ rest))
    ∧ ((fields.map (memberName tbl)).Nodup
        ↔ fields.Pairwise (fun f g =>
            ¬ (f.Name.data.head?.map (unicode.ToUpper tbl)
                  = g.Name.data.head?.map (unicode.ToUpper tbl)
                ∧ f.Name.data.tail = g.Name.data.tail)))
    ∧ ((fields.map (setterName tbl)).Nodup
        ↔ fields.Pairwise (fun f g =>
            ¬ (f.Name.data.head?.map (unicode.ToUpper tbl)
                  = g.Name.data.head?.map (unicode.ToUpper tbl)
                ∧ f.Name.data.tail = g.Name.data.tail)))
    ∧ ((builderMembers tbl ⟨T, fields⟩).Nodup
        ↔ (fields.Pairwise (fun f g =>
              ¬ (f.Name.data.head?.map (unicode.ToUpper tbl)
                    = g.Name.data.head?.map (unicode.ToUpper tbl)
                  ∧ f.Name.data.tail = g.Name.data.tail))
            ∧ (∀ f ∈ fields, ∀ g ∈ fields,
                ¬ (f.Name.data.head?.map (unicode.ToUpper tbl) = some 'S'
                    ∧ f.Name.data.tail
                      = 'e' :: 't' :: ((g.Name.data.head?.map (unicode.ToUpper tbl)).toList
                          ++ g.Name.data.tail)))
            ∧ (∀ f ∈ fields,
                ¬ (f.Name.data.head?.map (unicode.ToUpper tbl) = some 'B'
                    ∧ f.Name.data.tail = ['u', 'i', 'l', 'd'])))) := by
  have hB : (toPublic tbl T).value ++ "Builder" ≠ "" := append_ne_empty _ _ (by decide)
  have e1 : (") Set" : String) = ") " ++ "Set" := by decide
  have e2 : (") Build () *" : String) = ") " ++ "Build" ++ " (" ++ ") *" := by decide
  have e3 : ("()" : String) = "(" ++ ")" := by decide
  refine ⟨?_, ?_, ?_, ?_, memberNames_nodup_iff tbl fields hf,
    (setterNames_nodup_iff tbl fields).trans (memberNames_nodup_iff tbl fields hf),
    builderMembers_nodup_iff tbl T fields hf⟩
  · rw [writeBuilderStruct_run tbl T fields "" hT hf, String.empty_append]
    rfl
  · intro f hmem
    refine ⟨(receiver tbl ((toPublic tbl T).value ++ "Builder")).value,
      f.Name ++ " " ++ f.TypeString ++ ") *" ++ ((toPublic tbl T).value ++ "Builder")
        ++ " \x7b\n" ++ (receiver tbl ((toPublic tbl T).value ++ "Builder")).value ++ "."
        ++ (toPublic tbl f.Name).value ++ "=" ++ f.Name ++ "\nreturn "
        ++ (receiver tbl ((toPublic tbl T).value ++ "Builder")).value ++ "\n\x7d\n", ?_⟩
    rw [writeSetter_run tbl _ f.Name f.TypeString "" hB (hf f hmem), String.empty_append, e1]
    simp only [setterName, String.append_assoc]
  · refine ⟨(receiver tbl ((toPublic tbl T).value ++ "Builder")).value,
      ") *" ++ T ++ " \x7b\nreturn &" ++ T ++ "\x7b\n"
        ++ String.join (fields.map (fun f =>
            f.Name ++ ": " ++ (receiver tbl ((toPublic tbl T).value ++ "Builder")).value ++ "."
              ++ (toPublic tbl f.Name).value ++ ",\n"))
        ++ "\x7d\n\x7d\n", ?_⟩
    rw [writeBuildMethod_run tbl _ T fields "" hB hf, String.empty_append, e2]
    simp only [String.append_assoc]
  · intro f hmem
    refine ⟨(receiver tbl T).value,
      ")" ++ f.TypeString ++ " \x7b\nreturn " ++ (receiver tbl T).value ++ "." ++ f.Name
        ++ "\n\x7d\n", ?_⟩
    rw [writeGetter_run tbl T f.Name f.TypeString "" hT (hf f hmem), String.empty_append, e3]
    simp only [memberName, String.append_assoc]

theorem builder_members_distinct_witness :
    Jason.Name ≠ "" ∧ (∀ f ∈ Jason.Fields, f.Name ≠ "")
    ∧ (Jason.Fields.map (memberName idTables)).Nodup
    ∧ (Jason.Fields.map (setterName idTables)).Nodup
    ∧ (builderMembers idTables ⟨Jason.Name, Jason.Fields⟩).Nodup :=
  ⟨by decide, by decide,
    (builder_members_distinct idTables Jason.Name Jason.Fields (by decide)
      (by decide)).2.2.2.2.1.mpr (by decide),
    (builder_members_distinct idTables Jason.Name Jason.Fields (by decide)
      (by decide)).2.2.2.2.2.1.mpr (by decide),
    (builder_members_distinct idTables Jason.Name Jason.Fields (by decide)
      (by decide)).2.2.2.2.2.2.mpr (by decide)⟩

/-- C19 (counterexample): the path `aaa` ends with the separator `aa`, but
splitting it gives the segments `""` and `"a"`: `writePackage` writes
`package a`, the last segment is not the empty string. -/
theorem last_segment_not_empty :
    ("aa" : String) ≠ ""
    ∧ ("aa" : String).data <:+ ("aaa" : String).data
    ∧ strings.Split "aaa" "aa" = ["", "a"]
    ∧ writePackage "aa" "aaa" "" = Res.ok () "package a\n"
    ∧ writePackage "aa" "aaa" "" ≠ Res.ok () ("package " ++ "" ++ "\n") := by
  decide

/-- C19 (amended): for every path and every non-empty separator,
`writePackage` does not panic and appends exactly `"package " ++ p ++ "\n"`,
`p` being the last segment of the split path: the whole path when it does not
contain the separator, and the empty string when the separator is a single
character and the path ends with it.  For the constant `path` and the
separator `/` the line is `package builders`. -/
theorem writePackage_text (sep p file : String) (hsep : sep ≠ "") :
    ∃ pkg, (strings.Split p sep).getLast? = some pkg
      ∧ writePackage sep p file = Res.ok () (file ++ ("package " ++ pkg ++ "\n"))
      ∧ (¬ sep.data <:+: p.data → pkg = p)
      ∧ (sep.length = 1 → sep.data <:+ p.data → pkg = "")
      ∧ writePackage "/" path file = Res.ok () (file ++ "package builders\n") := by
  have hd : sep.data ≠ [] := fun e => hsep (String.ext e)
  have hsplit : strings.Split p sep
      = (strings.splitLoop sep.data (p.data.length + 1) p.data []).map String.mk := by
    unfold strings.Split
    rw [if_neg (by simpa using hd)]
  cases h : (strings.Split p sep).getLast? with
  | none => exact absurd (List.getLast?_eq_none_iff.mp h) (Split_ne_nil p sep hsep)
  | some pkg =>
    refine ⟨pkg, rfl, writePackage_run sep p pkg h file, ?_, ?_, ?_⟩
    · intro hni
      rw [hsplit, splitLoop_of_not_infix sep.data p.data _ [] hni (Nat.le_succ _)] at h
      simp at h
      exact h.symm
    · intro hlen hsuf
      obtain ⟨d, hd1⟩ : ∃ d, sep.data = [d] := by
        rw [String.length] at hlen
        exact List.length_eq_one.mp hlen
      rw [hd1] at hsuf
      obtain ⟨q, hq⟩ := hsuf
      have hlast := splitLoop_last_of_suffix d q ((q ++ [d]).length + 1) [] (Nat.le_succ _)
      rw [hsplit, hd1, ← hq, List.getLast?_map, hlast] at h
      simp at h
      exact h.symm
    · have e : (strings.Split path "/").getLast? = some "builders" := by decide
      rw [writePackage_run "/" path "builders" e file]
      exact congrArg (fun t => Res.ok () (file ++ t)) (by decide)

theorem writePackage_text_witness :
    ("/" : String) ≠ ""
    ∧ ∃ pkg, (strings.Split "a/b/" "/").getLast? = some pkg
      ∧ writePackage "/" "a/b/" "" = Res.ok () ("" ++ ("package " ++ pkg ++ "\n"))
      ∧ (¬ ("/" : String).data <:+: ("a/b/" : String).data → pkg = "a/b/")
      ∧ (("/" : String).length = 1 → ("/" : String).data <:+ ("a/b/" : String).data → pkg = "")
      ∧ writePackage "/" path "" = Res.ok () ("" ++ "package builders\n") :=
  ⟨by decide, writePackage_text "/" "a/b/" "" (by decide)⟩

/-- C20: for a non-empty type name `T`, the name
`B = toPublic T ++ "Builder"` returned by `writeBuilderStruct` is its own
public form, `toPublic B = B`, so the constructor `writeConstructor` writes
for `B` is `func New<B>() *B`, and this is the constructor in the text of
`genBuilder`.  The case table is assumed to send every non-ASCII rune to a
rune that `unicode.ToUpper` leaves alone. -/
theorem constructor_names_builder_type (tbl : CaseTables)
    (hup : ∀ r : Char, 127 < r.toNat → unicode.ToUpper tbl (tbl.upper r) = tbl.upper r)
    (T file : String) (hT : T ≠ "") :
    ∃ B, B = (toPublic tbl T).value ++ "Builder"
      ∧ toPublic tbl B file = Res.ok B file
      ∧ writeConstructor tbl B file
        = Res.ok () (file ++ ("\nfunc New" ++ B ++ "() *" ++ B
            ++ " \x7b\nreturn new(" ++ B ++ ") \n\x7d\n"))
      ∧ ∀ (sep : String) (fields : List StructField), (∀ f ∈ fields, f.Name ≠ "") →
          ∃ pkgDecl structDecl rest,
            writePackage sep path "" = Res.ok () pkgDecl
            ∧ writeBuilderStruct tbl ⟨T, fields⟩ "" = Res.ok B structDecl
            ∧ genBuilder tbl sep ⟨T, fields⟩
              = Res.ok () (pkgDecl ++ structDecl
                  ++ ("\nfunc New" ++ B ++ "() *" ++ B
                    ++ " \x7b\nreturn new(" ++ B ++ ") \n\x7d\n")
                  ++ rest) := by
  have hB : (toPublic tbl T).value ++ "Builder" ≠ "" := append_ne_empty _ _ (by decide)
  have hfix := toPublic_builder_name tbl hup T hT
  refine ⟨(toPublic tbl T).value ++ "Builder", rfl, ?_, ?_, ?_⟩
  · have h := toPublic_ok tbl _ file hB
    rw [hfix] at h
    exact h
  · have h := writeConstructor_run tbl _ file hB
    rw [hfix] at h
    exact h
  · intro sep fields hf
    obtain ⟨pkg, hpkg, _⟩ := writePackage_path_run sep
    refine ⟨_, _,
      String.join (fields.map (fun f =>
          "\nfunc ( " ++ (receiver tbl ((toPublic tbl T).value ++ "Builder")).value ++ " *"
          ++ ((toPublic tbl T).value ++ "Builder") ++ ") Set"
          ++ (toPublic tbl f.Name).value ++ "(" ++ f.Name ++ " " ++ f.TypeString ++ ") *"
          ++ ((toPublic tbl T).value ++ "Builder")
          ++ " \x7b\n" ++ (receiver tbl ((toPublic tbl T).value ++ "Builder")).value ++ "."
          ++ (toPublic tbl f.Name).value ++ "="
          ++ f.Name ++ "\nreturn " ++ (receiver tbl ((toPublic tbl T).value ++ "Builder")).value
          ++ "\n\x7d\n"))
        ++ ("\nfunc ( " ++ (receiver tbl ((toPublic tbl T).value ++ "Builder")).value ++ " *"
          ++ ((toPublic tbl T).value ++ "Builder") ++ ") Build () *"
          ++ T ++ " \x7b\nreturn &" ++ T ++ "\x7b\n"
          ++ String.join (fields.map (fun f =>
              f.Name ++ ": " ++ (receiver tbl ((toPublic tbl T).value ++ "Builder")).value ++ "."
                ++ (toPublic tbl f.Name).value ++ ",\n"))
          ++ "\x7d\n\x7d\n"),
      writePackage_run sep path pkg hpkg "",
      writeBuilderStruct_run tbl T fields "" hT hf, ?_⟩
    rw [genBuilder_run tbl sep T pkg fields hpkg hT hf _ rfl, hfix]
    simp only [String.empty_append, String.append_assoc]

theorem constructor_names_builder_type_witness :
    (∀ r : Char, 127 < r.toNat → unicode.ToUpper idTables (idTables.upper r) = idTables.upper r)
    ∧ ("jason" : String) ≠ ""
    ∧ ∃ B, B = (toPublic idTables "jason").value ++ "Builder"
      ∧ toPublic idTables B "" = Res.ok B ""
      ∧ writeConstructor idTables B ""
        = Res.ok () ("" ++ ("\nfunc New" ++ B ++ "() *" ++ B
            ++ " \x7b\nreturn new(" ++ B ++ ") \n\x7d\n"))
      ∧ ∀ (sep : String) (fields : List StructField), (∀ f ∈ fields, f.Name ≠ "") →
          ∃ pkgDecl structDecl rest,
            writePackage sep path "" = Res.ok () pkgDecl
            ∧ writeBuilderStruct idTables ⟨"jason", fields⟩ "" = Res.ok B structDecl
            ∧ genBuilder idTables sep ⟨"jason", fields⟩
              = Res.ok () (pkgDecl ++ structDecl
                  ++ ("\nfunc New" ++ B ++ "() *" ++ B
                    ++ " \x7b\nreturn new(" ++ B ++ ") \n\x7d\n")
                  ++ rest) :=
  ⟨idTables_upper_fixed, by decide,
    constructor_names_builder_type idTables idTables_upper_fixed "jason" "" (by decide)⟩

end Buildgen
